import Mathlib

/-!
Verification of the MCP tool-provider runtime of the AI-Chatbot-W-Support-For-MCP
repository: the credential manager (`src/lib/mcp/credential-manager.ts`), the
Google-Analytics MCP client wrapper (`src/lib/mcp/servers/google-analytics-client.ts`),
the connection pool (`src/lib/mcp/connection-pool.ts`) and the agent loop of the
chat route (`src/app/api/chat/route.ts` and its multi-service variant).

The TypeScript code is shallowly embedded: the Supabase table `mcp_connections`
becomes a list of records, the filesystem becomes a list of (path, creation mode)
pairs (file contents are irrelevant to the verified properties and are elided),
asynchronous effects become explicit state passing, and the language model and
the MCP transport become oracle functions supplied as parameters.
-/

/-- JavaScript `a || b` on a possibly-null string: `null` and `""` are falsy. -/
def jsOr (a : Option String) (b : String) : String :=
  match a with
  | none => b
  | some s => if s = "" then b else s

/-- If the reversed forms of `x` and `y` are incomparable by the prefix order,
no two left extensions `a ++ x` and `b ++ y` coincide. -/
theorem append_ne_of_rev_incomparable (a b x y : List Char)
    (hx : ¬ x.reverse <+: y.reverse) (hy : ¬ y.reverse <+: x.reverse) :
    a ++ x ≠ b ++ y := by
  intro h
  have h' : x.reverse ++ a.reverse = y.reverse ++ b.reverse := by
    have := congrArg List.reverse h
    simpa using this
  rcases List.append_eq_append_iff.mp h' with ⟨a', ha, _⟩ | ⟨c', hc, _⟩
  · exact hx ⟨a', ha.symm⟩
  · exact hy ⟨c', hc.symm⟩

/-- Appending a common suffix string is injective in the left argument. -/
theorem string_append_right_cancel (a b x : String) (h : a ++ x = b ++ x) : a = b := by
  apply String.ext
  have := congrArg String.data h
  simp only [String.data_append] at this
  exact List.append_cancel_right this

/-- Prepending a common string is injective in the right argument. -/
theorem string_append_left_cancel (p a b : String) (h : p ++ a = p ++ b) : a = b := by
  apply String.ext
  have := congrArg String.data h
  simpa using this

/-! ## Credential manager (`src/lib/mcp/credential-manager.ts`)

The Supabase table `mcp_connections` (UNIQUE(user_id, server_name), see
`database/` DDL) is a list of `MCPCredentials` records; the filesystem is a list
of `(path, mode)` pairs where the mode is the option given to `fs.writeFileSync`
at creation (`none` = no mode option, i.e. the default `0o666 & ~umask`).
-/

/-- One row of the `mcp_connections` table (fields used by the code). -/
structure MCPCredentials where
  user_id : String
  server_name : String
  credentials_path : String
  access_token : Option String
  refresh_token : String
  is_active : Bool
deriving DecidableEq, Repr

/-- Token payload passed to `createCredentials` (expiry elided: unused by the
verified properties). -/
structure OAuthTokens where
  access_token : Option String
  refresh_token : String
deriving DecidableEq, Repr

/-- Combined durable-record/filesystem state the credential manager acts on. -/
structure CredStore where
  db : List MCPCredentials
  fs : List (String × Option Nat)
deriving DecidableEq, Repr

namespace CredentialManager

/-- `fs.existsSync` -/
def fileExists (fs : List (String × Option Nat)) (p : String) : Bool :=
  fs.any (fun q => q.1 = p)

/-- `fs.writeFileSync(p, data, {mode})`: creates the file with the given mode;
writing an existing file keeps its permissions (POSIX: mode applies at creation). -/
def writeFile (fs : List (String × Option Nat)) (p : String) (mode : Option Nat) :
    List (String × Option Nat) :=
  if fs.any (fun q => q.1 = p) then fs else fs ++ [(p, mode)]

/-- `fs.unlinkSync` -/
def removeFile (fs : List (String × Option Nat)) (p : String) : List (String × Option Nat) :=
  fs.filter (fun q => ¬ q.1 = p)

/-- Creation mode recorded for path `p` (`none` = file absent). -/
def fileMode (fs : List (String × Option Nat)) (p : String) : Option (Option Nat) :=
  (fs.find? (fun q => q.1 = p)).map (fun q => q.2)

/-- `path.join(this.credentialsDir, `${userId}-${serverName}.json`)`
(the directory is the fixed `<cwd>/mcp-credentials`). -/
def credentialsPath (userId serverName : String) : String :=
  "mcp-credentials/" ++ (userId ++ "-" ++ serverName ++ ".json")

/-- The supabase query `.eq('user_id', u).eq('server_name', s).eq('is_active', true).single()`. -/
def findActive (db : List MCPCredentials) (userId serverName : String) : Option MCPCredentials :=
  db.find? (fun r => r.user_id = userId ∧ r.server_name = serverName ∧ r.is_active)

/-- `deactivateCredentials`: `.update({is_active: false}).eq('user_id', u).eq('server_name', s)`. -/
def deactivateCredentials (st : CredStore) (userId serverName : String) : CredStore :=
  { st with
    db := st.db.map (fun r =>
      if r.user_id = userId ∧ r.server_name = serverName then { r with is_active := false } else r) }

/-- `getCredentials`: select the active row; on a missing backing file, deactivate
and return null. Returns the (possibly updated) store alongside the result. -/
def getCredentials (st : CredStore) (userId serverName : String) :
    Option MCPCredentials × CredStore :=
  match findActive st.db userId serverName with
  | none => (none, st)
  | some r =>
    if fileExists st.fs r.credentials_path then (some r, st)
    else (none, deactivateCredentials st userId serverName)

/-- The `.upsert(..., {onConflict: 'user_id,server_name'})` call: replace the
row with the same key, else insert. -/
def upsertRecord (db : List MCPCredentials) (r : MCPCredentials) : List MCPCredentials :=
  if db.any (fun q => q.user_id = r.user_id ∧ q.server_name = r.server_name) then
    db.map (fun q => if q.user_id = r.user_id ∧ q.server_name = r.server_name then r else q)
  else db ++ [r]

/-- `createCredentials`: write the secret file with `mode: 0o600`, then upsert the
durable record; `dbOk` is the outcome of the upsert (on failure the file is
unlinked and an error is thrown). -/
def createCredentials (st : CredStore) (userId serverName : String) (tokens : OAuthTokens)
    (dbOk : Bool) : Except String MCPCredentials × CredStore :=
  let p := credentialsPath userId serverName
  let fs1 := writeFile st.fs p (some 0o600)
  if dbOk then
    let r : MCPCredentials :=
      { user_id := userId, server_name := serverName, credentials_path := p,
        access_token := tokens.access_token, refresh_token := tokens.refresh_token,
        is_active := true }
    (Except.ok r, { db := upsertRecord st.db r, fs := fs1 })
  else
    (Except.error "Failed to store credentials", { st with fs := removeFile fs1 p })

/-- `deleteCredentials`: resolve via `getCredentials`; when that returns null the
function returns immediately (`// Already deleted`); otherwise unlink the file
(if present) and delete the row. -/
def deleteCredentials (st : CredStore) (userId serverName : String) : CredStore :=
  match getCredentials st userId serverName with
  | (none, st1) => st1
  | (some r, st1) =>
    let fs1 := if fileExists st1.fs r.credentials_path
               then removeFile st1.fs r.credentials_path else st1.fs
    { db := st1.db.filter (fun q => ¬ (q.user_id = userId ∧ q.server_name = serverName)),
      fs := fs1 }

/-- Well-formedness from the table constraint UNIQUE(user_id, server_name):
any two rows with the same key are the same row. -/
def DBWF (db : List MCPCredentials) : Prop :=
  ∀ r1 ∈ db, ∀ r2 ∈ db,
    r1.user_id = r2.user_id → r1.server_name = r2.server_name → r1 = r2

instance (db : List MCPCredentials) : Decidable (DBWF db) := by
  unfold DBWF; infer_instance

end CredentialManager

/-! ## Google Analytics MCP client (`src/lib/mcp/servers/google-analytics-client.ts`)

The wrapper around one subprocess worker. The stdio transport is an oracle:
each operation takes the outcome the underlying `@modelcontextprotocol` call
would produce.  The tool catalog entries are kept as opaque strings.
-/

/-- The mutable fields of `GoogleAnalyticsMCPClient`: `client !== null`,
`isConnected`, and the cached tool catalog. -/
structure GAClientState where
  hasClient : Bool
  isConnected : Bool
  cachedTools : List String
deriving DecidableEq, Repr

namespace GoogleAnalyticsMCPClient

/-- The state of a freshly constructed client object. -/
def init : GAClientState := { hasClient := false, isConnected := false, cachedTools := [] }

/-- `connect(credentials)` also writes the launch-time credentials file
`ga4-mcp-creds-${Date.now()}.json` into the OS temp directory. -/
def tempCredsPath (timestamp : Nat) : String :=
  "tmp/ga4-mcp-creds-" ++ toString timestamp ++ ".json"

/-- The `fs.writeFileSync(credentialsPath, JSON.stringify(credentialsData, null, 2))`
call inside `connect`: no `mode` option is passed. -/
def connectWriteTempFile (fs : List (String × Option Nat)) (timestamp : Nat) :
    List (String × Option Nat) :=
  CredentialManager.writeFile fs (tempCredsPath timestamp) none

/-- `connect`: no-op when already connected with a client; otherwise the spawn +
handshake + initial `refreshTools` run (their combined outcome is the oracle
argument).  On success the catalog is cached and the connected flag set; the
`catch` block sets `isConnected = false` and rethrows (the client field, already
assigned, stays set). -/
def connect (c : GAClientState) (outcome : Except String (List String)) :
    Except String Unit × GAClientState :=
  if c.isConnected ∧ c.hasClient then (Except.ok (), c)
  else
    match outcome with
    | Except.ok tools =>
      (Except.ok (), { hasClient := true, isConnected := true, cachedTools := tools })
    | Except.error e =>
      (Except.error ("Failed to connect to Google Analytics MCP server: " ++ e),
       { c with hasClient := true, isConnected := false })

/-- `disconnect()`: close and null the client, clear the flag and the cache. -/
def disconnect (_c : GAClientState) : GAClientState :=
  { hasClient := false, isConnected := false, cachedTools := [] }

/-- `listTools()`: guard on the connected flag; serve from the cache when
non-empty, otherwise perform exactly one transport fetch and cache it. -/
def listTools (c : GAClientState) (transport : Except String (List String)) :
    Except String (List String) × GAClientState :=
  if ¬ (c.isConnected ∧ c.hasClient) then
    (Except.error "Not connected to Google Analytics MCP server", c)
  else if c.cachedTools.isEmpty then
    match transport with
    | Except.ok ts => (Except.ok ts, { c with cachedTools := ts })
    | Except.error e => (Except.error e, c)
  else (Except.ok c.cachedTools, c)

/-- `callTool(name, args)`: guard on the connected flag, then forward to the
transport.  There is no `catch`: a transport error propagates to the caller and
no field of the client is modified. -/
def callTool (c : GAClientState) (transport : Except String String) :
    Except String String × GAClientState :=
  if ¬ (c.isConnected ∧ c.hasClient) then
    (Except.error "Not connected to Google Analytics MCP server", c)
  else (transport, c)

end GoogleAnalyticsMCPClient

/-! ## Connection pool (`src/lib/mcp/connection-pool.ts`)

`connections : Map<string, ConnectionEntry>` becomes an association list with
unique keys (JS `Map` semantics); client objects are identified by allocation
order (`nextClientId`), and `spawnCount` instruments how many subprocess workers
have been started (one per `client.connect` attempt).

`getConnection` is an `async` method: everything up to the cached-entry check
runs synchronously when the call starts, and everything after the first `await`
(credential resolution, client construction, connect, map insertion) runs later
as a continuation.  The two segments are embedded separately (`syncSegment`,
`contSegment`) and `getConnection` is their sequential composition, which is
exactly what a caller observes when no other call interleaves.
-/

/-- One `ConnectionEntry` of the pool map. -/
structure ConnectionEntry where
  clientId : Nat
  userId : String
  serverName : String
  lastUsed : Nat
  isConnected : Bool
deriving DecidableEq, Repr

/-- The pool's mutable state plus instrumentation counters. -/
structure PoolState where
  connections : List (String × ConnectionEntry)
  nextClientId : Nat
  spawnCount : Nat
deriving DecidableEq, Repr

namespace MCPConnectionPool

/-- `` `${userId}:${serverName}` `` -/
def getConnectionKey (userId serverName : String) : String :=
  userId ++ ":" ++ serverName

/-- `this.connections.get(key)` -/
def lookupConn (l : List (String × ConnectionEntry)) (k : String) : Option ConnectionEntry :=
  (l.find? (fun p => p.1 = k)).map (fun p => p.2)

/-- `this.connections.set(key, entry)` (JS `Map.set`: replace in place, else append). -/
def mapSet (l : List (String × ConnectionEntry)) (k : String) (e : ConnectionEntry) :
    List (String × ConnectionEntry) :=
  if l.any (fun p => p.1 = k) then l.map (fun p => if p.1 = k then (k, e) else p)
  else l ++ [(k, e)]

/-- `this.connections.delete(key)` -/
def mapDelete (l : List (String × ConnectionEntry)) (k : String) :
    List (String × ConnectionEntry) :=
  l.filter (fun p => ¬ p.1 = k)

/-- The synchronous part of `getConnection` (runs before the first `await`):
key computation, cache lookup, and — on a hit whose `isConnected` flag is set —
the `lastUsed` refresh and early return of the cached client. -/
def syncSegment (st : PoolState) (userId serverName : String) (now : Nat) :
    Option Nat × PoolState :=
  let key := getConnectionKey userId serverName
  match lookupConn st.connections key with
  | some e =>
    if e.isConnected then
      (some e.clientId,
       { st with connections := mapSet st.connections key { e with lastUsed := now } })
    else (none, st)
  | none => (none, st)

/-- The continuation of `getConnection` after a cache miss: resolve credentials
(`creds` = whether `CredentialManager.getCredentials` returns a record), build a
fresh client, spawn + connect the worker (`connectOk` = outcome), and on success
cache the entry under the key.  A failed attempt is not cached; a thrown error
is an `Except.error`. -/
def contSegment (creds : String → String → Bool) (connectOk : String → String → Bool)
    (st : PoolState) (userId serverName : String) (now : Nat) :
    Except String Nat × PoolState :=
  if creds userId serverName then
    let c := st.nextClientId
    if connectOk userId serverName then
      (Except.ok c,
       { connections := mapSet st.connections (getConnectionKey userId serverName)
           { clientId := c, userId := userId, serverName := serverName,
             lastUsed := now, isConnected := true },
         nextClientId := st.nextClientId + 1,
         spawnCount := st.spawnCount + 1 })
    else
      (Except.error ("Failed to connect MCP client for user " ++ userId),
       { st with nextClientId := st.nextClientId + 1, spawnCount := st.spawnCount + 1 })
  else
    (Except.error ("No credentials found for user " ++ userId ++ " and server " ++ serverName),
     st)

/-- `getConnection(userId, serverName)` as observed by an uninterleaved caller:
the synchronous segment followed, on a miss, by the continuation. -/
def getConnection (creds : String → String → Bool) (connectOk : String → String → Bool)
    (st : PoolState) (userId serverName : String) (now : Nat) :
    Except String Nat × PoolState :=
  match syncSegment st userId serverName now with
  | (some c, st1) => (Except.ok c, st1)
  | (none, st1) => contSegment creds connectOk st1 userId serverName now

/-- `closeConnection`: disconnect and evict one entry if present. -/
def closeConnection (st : PoolState) (userId serverName : String) : PoolState :=
  let key := getConnectionKey userId serverName
  match lookupConn st.connections key with
  | some _ => { st with connections := mapDelete st.connections key }
  | none => st

/-- `cleanupIdleConnections`: evict every entry idle longer than 60 minutes
(threshold in milliseconds, as in the source). -/
def idleThreshold : Nat := 60 * 60 * 1000

/-- One run of the idle sweep at time `now`. -/
def cleanupIdleConnections (st : PoolState) (now : Nat) : PoolState :=
  { st with connections :=
      st.connections.filter (fun p => ¬ idleThreshold < now - p.2.lastUsed) }

/-- N concurrent `getConnection` calls: every call's synchronous segment runs at
call-initiation time, before any awaited promise resolves, so the segments all
execute back-to-back against the starting state. Returns each call's
hit-result (if any) alongside the state. -/
def startAll (st : PoolState) (calls : List (String × String)) (now : Nat) :
    List ((String × String) × Option Nat) × PoolState :=
  match calls with
  | [] => ([], st)
  | (u, s) :: rest =>
    let (r, st1) := syncSegment st u s now
    let (rs, st2) := startAll st1 rest now
    (((u, s), r) :: rs, st2)

/-- The continuations of the calls that missed then run, serialized by the event
loop, in completion order. -/
def resumeAll (creds : String → String → Bool) (connectOk : String → String → Bool)
    (st : PoolState) (pending : List ((String × String) × Option Nat)) (now : Nat) :
    List (Except String Nat) × PoolState :=
  match pending with
  | [] => ([], st)
  | ((_, _), some c) :: rest =>
    let (rs, st1) := resumeAll creds connectOk st rest now
    (Except.ok c :: rs, st1)
  | ((u, s), none) :: rest =>
    let (r, st1) := contSegment creds connectOk st u s now
    let (rs, st2) := resumeAll creds connectOk st1 rest now
    (r :: rs, st2)

/-- A batch of concurrent `getConnection` calls (all initiated before any
completes): all synchronous segments first, then all pending continuations. -/
def runConcurrent (creds : String → String → Bool) (connectOk : String → String → Bool)
    (st : PoolState) (calls : List (String × String)) (now : Nat) :
    List (Except String Nat) × PoolState :=
  let (pending, st1) := startAll st calls now
  resumeAll creds connectOk st1 pending now

/-- Pool well-formedness: entries cached under distinct keys are distinct
client objects, and every cached client id was previously allocated.  Both hold
of the initial empty pool and are preserved by `getConnection`. -/
def PoolWF (st : PoolState) : Prop :=
  (∀ p ∈ st.connections, ∀ q ∈ st.connections, p.1 ≠ q.1 → p.2.clientId ≠ q.2.clientId) ∧
  (∀ p ∈ st.connections, p.2.clientId < st.nextClientId)

end MCPConnectionPool

/-! ## Agent loop (`src/app/api/chat/route.ts`; multi-service variant in the
chat route that merges GA4 and GSC toolsets)

The language model is an oracle `llm : List ChatMsg → LLMMessage` ("given
messages and a tool catalog, return either a final message or exactly one tool
invocation request"); the forced final call, issued without a tool catalog, is a
separate oracle `llmPlain : List ChatMsg → Option String`.  Each connected
service's `callTool` is an oracle `String → String → Except String String`
returning the already-stringified result payload.
-/

/-- An OpenAI `function_call` object. -/
structure FunctionCall where
  name : String
  arguments : String
deriving DecidableEq, Repr

/-- One entry of the `messages` array. -/
inductive ChatMsg where
  | system (content : String)
  | user (content : String)
  | assistant (content : Option String)
  | assistantCall (fc : FunctionCall)
  | function (name : String) (content : String)
deriving DecidableEq, Repr

/-- The model's reply: `content` and an optional `function_call`. -/
structure LLMMessage where
  content : Option String
  function_call : Option FunctionCall
deriving DecidableEq, Repr

/-- A raw tool as listed by a connection. -/
structure MCPRawTool where
  name : String
  description : String
deriving DecidableEq, Repr

/-- A merged-catalog entry: the service-prefixed external name plus the retained
back-references `_originalName` and `_service` (optional because the dispatch
code re-checks their presence). -/
structure MergedTool where
  name : String
  description : String
  originalName : Option String
  service : Option String
deriving DecidableEq, Repr

namespace ChatRoute

/-- `const MAX_ITERATIONS = 5` -/
def MAX_ITERATIONS : Nat := 5

/-- `tools.map(tool => ({...tool, name: `${tag}_${name}`, description: `[TAG] ...`,
_originalName: name, _service: service}))` -/
def renameTools (tag : String) (descrTag : String) (service : String)
    (tools : List MCPRawTool) : List MergedTool :=
  tools.map (fun t =>
    { name := tag ++ t.name,
      description := descrTag ++ t.description,
      originalName := some t.name,
      service := some service })

/-- `allTools`: GA4 tools prefixed `ga4_` followed by GSC tools prefixed `gsc_`. -/
def mergedTools (ga4 gsc : List MCPRawTool) : List MergedTool :=
  renameTools "ga4_" "[GA4] " "google-analytics" ga4 ++
  renameTools "gsc_" "[GSC] " "google-search-console" gsc

/-- JS truthiness of an optional string field (`null` and `""` are falsy). -/
def truthy (a : Option String) : Bool :=
  match a with
  | none => false
  | some s => ¬ s = ""

/-- The catalog-lookup part of the dispatch: `allTools.find(t => t.name ===
functionName)` plus the `!tool || !tool._service || !tool._originalName` guard;
returns the (service, originalName) pair the call is routed by. -/
def dispatchTarget (allTools : List MergedTool) (functionName : String) :
    Option (String × String) :=
  match allTools.find? (fun t => t.name = functionName) with
  | none => none
  | some t =>
    match t.service, t.originalName with
    | some svc, some orig =>
      if svc = "" ∨ orig = "" then none else some (svc, orig)
    | _, _ => none

/-- The body of the `try` block around a tool call: resolve the tool, resolve
the client for its service, and call it with the original (unprefixed) name.
Any `throw` becomes `Except.error` with the thrown message. -/
def dispatchTool (allTools : List MergedTool)
    (clients : String → Option (String → String → Except String String))
    (functionName functionArgs : String) : Except String String :=
  match dispatchTarget allTools functionName with
  | none => Except.error ("Tool " ++ functionName ++ " not found or invalid")
  | some (svc, orig) =>
    match clients svc with
    | none => Except.error ("MCP client for " ++ svc ++ " not available")
    | some call => call orig functionArgs

/-- `JSON.stringify({error: e, message: 'Failed to execute tool. ...'})` for the
`catch` branch (escaping inside the payload elided). -/
def errorPayload (e : String) : String :=
  "\x7b\"error\":\"" ++ e ++ "\",\"message\":\"Failed to execute tool. Please try a different approach.\"\x7d"

/-- The function-role turn appended after a tool call: the raw stringified
result on success, the structured error payload on failure. -/
def toolResultContent (r : Except String String) : String :=
  match r with
  | Except.ok payload => payload
  | Except.error e => errorPayload e

/-- The per-request loop state: message list, iteration counter, final response
accumulator (`''` = none yet), and a count of in-loop model calls. -/
structure AgentState where
  messages : List ChatMsg
  iteration : Nat
  finalResponse : String
  loopLLMCalls : Nat
deriving DecidableEq, Repr

/-- The `while (iteration < MAX_ITERATIONS)` loop, with the remaining iteration
budget as fuel (`fuel = MAX_ITERATIONS - iteration` at entry).  Each pass
increments the counter, consults the model, and either breaks with the final
answer (`content || 'No response'`) or appends the assistant's function call and
the corresponding function-role result turn and continues. -/
def agentIter (llm : List ChatMsg → LLMMessage)
    (clients : String → Option (String → String → Except String String))
    (allTools : List MergedTool) : Nat → AgentState → AgentState
  | 0, s => s
  | fuel + 1, s =>
    let s1 : AgentState :=
      { s with iteration := s.iteration + 1, loopLLMCalls := s.loopLLMCalls + 1 }
    let resp := llm s.messages
    match resp.function_call with
    | none => { s1 with finalResponse := jsOr resp.content "No response" }
    | some fc =>
      let result := dispatchTool allTools clients fc.name fc.arguments
      agentIter llm clients allTools fuel
        { s1 with messages :=
            s.messages ++ [ChatMsg.assistantCall fc,
                           ChatMsg.function fc.name (toolResultContent result)] }

/-- The system turn pushed before the forced final model call. -/
def forcedFinalSystemMsg : ChatMsg :=
  ChatMsg.system "Please provide a final answer based on the information gathered so far."

/-- The whole agent-loop section of `POST` (entered when `allTools.length > 0`):
run the loop from iteration 0; if the budget was exhausted with no final
response, push the extra system instruction and issue exactly one additional
plain model call.  Returns the response text, the loop iteration count, the
number of in-loop model calls, and the number of additional (forced-final)
model calls. -/
def runAgent (llm : List ChatMsg → LLMMessage) (llmPlain : List ChatMsg → Option String)
    (clients : String → Option (String → String → Except String String))
    (allTools : List MergedTool) (seed : List ChatMsg) :
    String × Nat × Nat × Nat :=
  let s := agentIter llm clients allTools MAX_ITERATIONS
    { messages := seed, iteration := 0, finalResponse := "", loopLLMCalls := 0 }
  if MAX_ITERATIONS ≤ s.iteration ∧ s.finalResponse = "" then
    let msgs := s.messages ++ [forcedFinalSystemMsg]
    (jsOr (llmPlain msgs) "Unable to complete the request.", s.iteration, s.loopLLMCalls, 1)
  else
    (s.finalResponse, s.iteration, s.loopLLMCalls, 0)

end ChatRoute

/-! ## Helper lemmas: credential manager -/

namespace CredentialManager

theorem findActive_eq_none_iff (db : List MCPCredentials) (u s : String) :
    findActive db u s = none ↔
      ∀ r ∈ db, ¬ (r.user_id = u ∧ r.server_name = s ∧ r.is_active = true) := by
  simp [findActive, List.find?_eq_none]

theorem findActive_of_mem {db : List MCPCredentials} {u s : String} {r : MCPCredentials}
    (hwf : DBWF db) (hr : r ∈ db) (hu : r.user_id = u) (hs : r.server_name = s)
    (ha : r.is_active = true) : findActive db u s = some r := by
  have hsome : (db.find? (fun q => q.user_id = u ∧ q.server_name = s ∧ q.is_active)).isSome := by
    rw [List.find?_isSome]
    exact ⟨r, hr, by simp [hu, hs, ha]⟩
  obtain ⟨q, hq⟩ := Option.isSome_iff_exists.mp hsome
  have hqmem : q ∈ db := List.mem_of_find?_eq_some hq
  have hqpred := List.find?_some hq
  simp only [decide_eq_true_eq] at hqpred
  obtain ⟨hqu, hqs, hqa⟩ := hqpred
  have : q = r := hwf q hqmem r hr (by rw [hqu, hu]) (by rw [hqs, hs])
  rw [findActive, hq, this]

end CredentialManager

/-- C5: `getCredentials` returns the active record for (user, service); it
returns `none` leaving the store untouched when every record for the key is
inactive (or no record exists); and when the active record's backing secret
file is missing it returns `none` after deactivating the record (every record
for the key in the resulting store is inactive). -/
theorem C5_getCredentials_active_or_notfound_selfheal (st : CredStore) (u s : String)
    (hwf : CredentialManager.DBWF st.db) :
    ((∀ r ∈ st.db, r.user_id = u → r.server_name = s → r.is_active = false) →
        CredentialManager.getCredentials st u s = (none, st)) ∧
    (∀ r ∈ st.db, r.user_id = u → r.server_name = s → r.is_active = true →
        CredentialManager.fileExists st.fs r.credentials_path = true →
        CredentialManager.getCredentials st u s = (some r, st)) ∧
    (∀ r ∈ st.db, r.user_id = u → r.server_name = s → r.is_active = true →
        CredentialManager.fileExists st.fs r.credentials_path = false →
        (CredentialManager.getCredentials st u s).1 = none ∧
        ∀ q ∈ (CredentialManager.getCredentials st u s).2.db,
          q.user_id = u → q.server_name = s → q.is_active = false) := by
  refine ⟨?_, ?_, ?_⟩
  · intro hinact
    have hnone : CredentialManager.findActive st.db u s = none := by
      rw [CredentialManager.findActive_eq_none_iff]
      intro r hr
      rintro ⟨hu, hs, ha⟩
      have := hinact r hr hu hs
      rw [this] at ha
      exact Bool.false_ne_true ha
    simp [CredentialManager.getCredentials, hnone]
  · intro r hr hu hs ha hfile
    have hfind := CredentialManager.findActive_of_mem hwf hr hu hs ha
    simp [CredentialManager.getCredentials, hfind, hfile]
  · intro r hr hu hs ha hfile
    have hfind := CredentialManager.findActive_of_mem hwf hr hu hs ha
    constructor
    · simp [CredentialManager.getCredentials, hfind, hfile]
    · intro q hq hqu hqs
      simp only [CredentialManager.getCredentials, hfind, hfile] at hq
      simp only [CredentialManager.deactivateCredentials, Bool.false_eq_true, if_false,
        List.mem_map] at hq
      obtain ⟨p, hp, hpq⟩ := hq
      by_cases hkey : p.user_id = u ∧ p.server_name = s
      · rw [if_pos hkey] at hpq
        rw [← hpq]
      · rw [if_neg hkey] at hpq
        exact absurd ⟨by rw [hpq]; exact hqu, by rw [hpq]; exact hqs⟩ hkey

/-- Witness for C5 at a concrete store: an active record whose backing file is
missing is deactivated and `none` is returned. -/
theorem C5_witness :
    (CredentialManager.getCredentials
        { db := [{ user_id := "u1", server_name := "google-analytics",
                   credentials_path := "mcp-credentials/u1-google-analytics.json",
                   access_token := none, refresh_token := "rt", is_active := true }],
          fs := [] } "u1" "google-analytics").1 = none ∧
    ∀ q ∈ (CredentialManager.getCredentials
        { db := [{ user_id := "u1", server_name := "google-analytics",
                   credentials_path := "mcp-credentials/u1-google-analytics.json",
                   access_token := none, refresh_token := "rt", is_active := true }],
          fs := [] } "u1" "google-analytics").2.db,
      q.user_id = "u1" → q.server_name = "google-analytics" → q.is_active = false :=
  (C5_getCredentials_active_or_notfound_selfheal
      { db := [{ user_id := "u1", server_name := "google-analytics",
                 credentials_path := "mcp-credentials/u1-google-analytics.json",
                 access_token := none, refresh_token := "rt", is_active := true }],
        fs := [] } "u1" "google-analytics" (by decide)).2.2
    { user_id := "u1", server_name := "google-analytics",
      credentials_path := "mcp-credentials/u1-google-analytics.json",
      access_token := none, refresh_token := "rt", is_active := true }
    (by decide) (by decide) (by decide) (by decide) (by decide)

namespace CredentialManager

theorem fileExists_writeFile_self (fs : List (String × Option Nat)) (p : String)
    (m : Option Nat) : fileExists (writeFile fs p m) p = true := by
  unfold fileExists writeFile
  by_cases h : fs.any (fun q => q.1 = p)
  · simp only [if_pos h]
    exact h
  · simp [h]

theorem fileExists_removeFile_self (fs : List (String × Option Nat)) (p : String) :
    fileExists (removeFile fs p) p = false := by
  unfold fileExists removeFile
  induction fs with
  | nil => rfl
  | cons q rest ih =>
    by_cases h : q.1 = p
    · simp [h, ih]
    · simp [h, ih]

theorem findActive_append_single (db : List MCPCredentials) (r : MCPCredentials)
    (hnokey : db.all (fun q => ¬ (q.user_id = r.user_id ∧ q.server_name = r.server_name)))
    (ha : r.is_active = true) :
    findActive (db ++ [r]) r.user_id r.server_name = some r := by
  induction db with
  | nil => simp [findActive, ha]
  | cons q rest ih =>
    simp only [List.all_cons, Bool.and_eq_true, decide_eq_true_eq] at hnokey
    obtain ⟨hq, hrest⟩ := hnokey
    have hpred : (fun p : MCPCredentials =>
        decide (p.user_id = r.user_id ∧ p.server_name = r.server_name ∧
          p.is_active = true)) q = false := by
      simp only [decide_eq_false_iff_not]
      intro ⟨h1, h2, _⟩
      exact hq ⟨h1, h2⟩
    simp only [findActive, List.cons_append] at ih ⊢
    rw [List.find?_cons_of_neg _ (by simp only [hpred]; exact Bool.false_ne_true)]
    exact ih hrest

theorem findActive_map_replace (db : List MCPCredentials) (r : MCPCredentials)
    (hkey : db.any (fun q => q.user_id = r.user_id ∧ q.server_name = r.server_name))
    (ha : r.is_active = true) :
    findActive
      (db.map (fun q =>
        if q.user_id = r.user_id ∧ q.server_name = r.server_name then r else q))
      r.user_id r.server_name = some r := by
  induction db with
  | nil => simp at hkey
  | cons q rest ih =>
    by_cases h : q.user_id = r.user_id ∧ q.server_name = r.server_name
    · simp only [List.map_cons, if_pos h, findActive]
      rw [List.find?_cons_of_pos _ (by simp [ha])]
    · simp only [List.any_cons, Bool.or_eq_true, decide_eq_true_eq] at hkey
      rcases hkey with hq | hrest
      · exact absurd hq h
      · have hpred : (fun p : MCPCredentials =>
            decide (p.user_id = r.user_id ∧ p.server_name = r.server_name ∧
              p.is_active = true)) q = false := by
          simp only [decide_eq_false_iff_not]
          intro ⟨h1, h2, _⟩
          exact h ⟨h1, h2⟩
        simp only [List.map_cons, if_neg h, findActive] at ih ⊢
        rw [List.find?_cons_of_neg _ (by simp only [hpred]; exact Bool.false_ne_true)]
        exact ih hrest

theorem findActive_upsert (db : List MCPCredentials) (r : MCPCredentials)
    (ha : r.is_active = true) :
    findActive (upsertRecord db r) r.user_id r.server_name = some r := by
  unfold upsertRecord
  by_cases h : db.any (fun q => q.user_id = r.user_id ∧ q.server_name = r.server_name)
  · rw [if_pos h]
    exact findActive_map_replace db r h ha
  · rw [if_neg h]
    apply findActive_append_single db r _ ha
    rw [List.all_eq_true]
    intro q hq
    simp only [List.any_eq_true, decide_eq_true_eq] at h
    simp only [decide_eq_true_eq]
    exact fun hk => h ⟨q, hq, hk⟩

end CredentialManager

/-- C6 counterexample: a (user, service) whose durable record is inactive (as
left behind by `deactivateCredentials` or by the self-healing path of
`getCredentials`) while its secret file still exists.  `deleteCredentials`
returns without removing either: the durable record and the secret file both
survive, contradicting "Delete removes the secret file and the durable record
permanently". -/
theorem C6_counterexample :
    CredentialManager.deleteCredentials
      { db := [{ user_id := "u1", server_name := "google-analytics",
                 credentials_path := "mcp-credentials/u1-google-analytics.json",
                 access_token := none, refresh_token := "rt", is_active := false }],
        fs := [("mcp-credentials/u1-google-analytics.json", some 0o600)] }
      "u1" "google-analytics" =
      { db := [{ user_id := "u1", server_name := "google-analytics",
                 credentials_path := "mcp-credentials/u1-google-analytics.json",
                 access_token := none, refresh_token := "rt", is_active := false }],
        fs := [("mcp-credentials/u1-google-analytics.json", some 0o600)] } ∧
    ¬ ((CredentialManager.deleteCredentials
      { db := [{ user_id := "u1", server_name := "google-analytics",
                 credentials_path := "mcp-credentials/u1-google-analytics.json",
                 access_token := none, refresh_token := "rt", is_active := false }],
        fs := [("mcp-credentials/u1-google-analytics.json", some 0o600)] }
      "u1" "google-analytics").db = []) := by
  constructor
  · rfl
  · decide

/-- C6 (amended): `deleteCredentials` is error-free and a no-op when no record
for the key exists; when the key's record is active and its secret file exists
(in particular immediately after `createCredentials`), it removes both the
secret file and every durable record for the key — but when `getCredentials`
resolves nothing (record absent, inactive, or its file missing) it returns
without deleting the durable record. -/
theorem C6_delete_after_create_clean (st : CredStore) (u s : String) (tok : OAuthTokens)
    (r : MCPCredentials) :
    ((∀ q ∈ st.db, ¬ (q.user_id = u ∧ q.server_name = s)) →
        CredentialManager.deleteCredentials st u s = st) ∧
    (CredentialManager.findActive st.db u s = some r →
        CredentialManager.fileExists st.fs r.credentials_path = true →
        (∀ q ∈ (CredentialManager.deleteCredentials st u s).db,
            ¬ (q.user_id = u ∧ q.server_name = s)) ∧
        CredentialManager.fileExists (CredentialManager.deleteCredentials st u s).fs
          r.credentials_path = false) ∧
    (∀ q ∈ (CredentialManager.deleteCredentials
          ((CredentialManager.createCredentials st u s tok true).2) u s).db,
        ¬ (q.user_id = u ∧ q.server_name = s)) ∧
    CredentialManager.fileExists
      (CredentialManager.deleteCredentials
          ((CredentialManager.createCredentials st u s tok true).2) u s).fs
      (CredentialManager.credentialsPath u s) = false := by
  have hmain : ∀ st' : CredStore, ∀ r' : MCPCredentials,
      CredentialManager.findActive st'.db u s = some r' →
      CredentialManager.fileExists st'.fs r'.credentials_path = true →
      (∀ q ∈ (CredentialManager.deleteCredentials st' u s).db,
          ¬ (q.user_id = u ∧ q.server_name = s)) ∧
      CredentialManager.fileExists (CredentialManager.deleteCredentials st' u s).fs
        r'.credentials_path = false := by
    intro st' r' hfind hfile
    have hdel : CredentialManager.deleteCredentials st' u s =
        { db := st'.db.filter (fun q => ¬ (q.user_id = u ∧ q.server_name = s)),
          fs := CredentialManager.removeFile st'.fs r'.credentials_path } := by
      unfold CredentialManager.deleteCredentials
      simp [CredentialManager.getCredentials, hfind, hfile]
    rw [hdel]
    constructor
    · intro q hq
      exact of_decide_eq_true (List.mem_filter.mp hq).2
    · exact CredentialManager.fileExists_removeFile_self st'.fs r'.credentials_path
  refine ⟨?_, fun hfind hfile => hmain st r hfind hfile, ?_⟩
  · intro hnone
    have hfindnone : CredentialManager.findActive st.db u s = none := by
      rw [CredentialManager.findActive_eq_none_iff]
      intro q hq ⟨h1, h2, _⟩
      exact hnone q hq ⟨h1, h2⟩
    unfold CredentialManager.deleteCredentials
    simp [CredentialManager.getCredentials, hfindnone]
  · set st1 := (CredentialManager.createCredentials st u s tok true).2 with hst1
    set rnew : MCPCredentials :=
      { user_id := u, server_name := s,
        credentials_path := CredentialManager.credentialsPath u s,
        access_token := tok.access_token, refresh_token := tok.refresh_token,
        is_active := true } with hrnew
    have hdb1 : st1.db = CredentialManager.upsertRecord st.db rnew := by
      rw [hst1]
      rfl
    have hfs1 : st1.fs =
        CredentialManager.writeFile st.fs (CredentialManager.credentialsPath u s)
          (some 0o600) := by
      rw [hst1]
      rfl
    have hfind1 : CredentialManager.findActive st1.db u s = some rnew := by
      rw [hdb1]
      exact CredentialManager.findActive_upsert st.db rnew rfl
    have hfile1 : CredentialManager.fileExists st1.fs rnew.credentials_path = true := by
      rw [hfs1]
      exact CredentialManager.fileExists_writeFile_self _ _ _
    exact hmain st1 rnew hfind1 hfile1

/-- Witness for C6 at a concrete store: create-then-delete for a fresh key
leaves no record and no file for that key. -/
theorem C6_witness :
    (∀ q ∈ (CredentialManager.deleteCredentials
          ((CredentialManager.createCredentials { db := [], fs := [] } "u1"
              "google-analytics" { access_token := none, refresh_token := "rt" } true).2)
          "u1" "google-analytics").db,
        ¬ (q.user_id = "u1" ∧ q.server_name = "google-analytics")) ∧
    CredentialManager.fileExists
      (CredentialManager.deleteCredentials
          ((CredentialManager.createCredentials { db := [], fs := [] } "u1"
              "google-analytics" { access_token := none, refresh_token := "rt" } true).2)
          "u1" "google-analytics").fs
      (CredentialManager.credentialsPath "u1" "google-analytics") = false :=
  (C6_delete_after_create_clean { db := [], fs := [] } "u1" "google-analytics"
      { access_token := none, refresh_token := "rt" }
      { user_id := "u1", server_name := "google-analytics",
        credentials_path := CredentialManager.credentialsPath "u1" "google-analytics",
        access_token := none, refresh_token := "rt", is_active := true }).2.2

/-- C7 (code-bug evidence): the credential store writes its per-(user, service)
secret file with `mode: 0o600`, but the launch-time credentials file written by
`GoogleAnalyticsMCPClient.connect` passes no mode option at all, so that secret
file is created with the default permissions (`0o666 & ~umask`), not owner-only
— contradicting the repository's own documentation ("Credentials files with
0o600 permissions (owner only)"). -/
theorem C7_launch_time_secret_file_not_owner_only :
    CredentialManager.fileMode
      ((CredentialManager.createCredentials { db := [], fs := [] } "u1" "google-analytics"
          { access_token := none, refresh_token := "rt" } true).2.fs)
      (CredentialManager.credentialsPath "u1" "google-analytics") = some (some 0o600) ∧
    CredentialManager.fileMode
      (GoogleAnalyticsMCPClient.connectWriteTempFile [] 17)
      (GoogleAnalyticsMCPClient.tempCredsPath 17) = some none ∧
    ¬ CredentialManager.fileMode
      (GoogleAnalyticsMCPClient.connectWriteTempFile [] 17)
      (GoogleAnalyticsMCPClient.tempCredsPath 17) = some (some 0o600) := by
  refine ⟨by decide, ?_, ?_⟩
  · rfl
  · decide

/-- C8 counterexample: a connected client whose `callTool` transport call fails.
The claim says the connection "transitions directly to Disconnected", but
`callTool` has no failure handler: the error propagates and `isConnected`
remains `true`, so the connection is still observed as Connected. -/
theorem C8_counterexample :
    (GoogleAnalyticsMCPClient.callTool
        { hasClient := true, isConnected := true, cachedTools := ["run_report"] }
        (Except.error "transport closed")).1 = Except.error "transport closed" ∧
    ¬ ((GoogleAnalyticsMCPClient.callTool
        { hasClient := true, isConnected := true, cachedTools := ["run_report"] }
        (Except.error "transport closed")).2.isConnected = false) := by
  constructor
  · rfl
  · decide

/-- C8 (amended): a transport failure during `connect` does leave the client
Disconnected (`isConnected = false`), and `disconnect` always yields the
Disconnected state; but a transport-level failure during `callTool` or
`listTools` on a Connected client leaves the client state — including its
`isConnected` flag — completely unchanged, so every subsequent observer still
sees it as Connected (the pool's own entry flag lives in `ConnectionEntry` and
is likewise untouched by the failing call). -/
theorem C8_transport_failure_keeps_connected_flag (c : GAClientState) (e : String) :
    (¬ (c.isConnected ∧ c.hasClient) →
        (GoogleAnalyticsMCPClient.connect c (Except.error e)).2.isConnected = false) ∧
    ((GoogleAnalyticsMCPClient.disconnect c).isConnected = false) ∧
    (c.isConnected = true → c.hasClient = true →
        (GoogleAnalyticsMCPClient.callTool c (Except.error e)).2 = c ∧
        (GoogleAnalyticsMCPClient.callTool c (Except.error e)).2.isConnected = true ∧
        (GoogleAnalyticsMCPClient.listTools c (Except.error e)).2 = c) := by
  refine ⟨?_, rfl, ?_⟩
  · intro h
    simp only [GoogleAnalyticsMCPClient.connect, if_neg h]
  · intro hconn hcl
    have hguard : ¬ ¬ (c.isConnected ∧ c.hasClient) := by
      simp [hconn, hcl]
    refine ⟨?_, ?_, ?_⟩
    · simp only [GoogleAnalyticsMCPClient.callTool, if_neg hguard]
    · simp only [GoogleAnalyticsMCPClient.callTool, if_neg hguard]
      exact hconn
    · unfold GoogleAnalyticsMCPClient.listTools
      rw [if_neg hguard]
      by_cases hc : c.cachedTools.isEmpty
      · simp [hc]
      · simp [hc]

/-- Witness for C8 (amended) at a concrete connected client and failing
transport. -/
theorem C8_witness :
    (GoogleAnalyticsMCPClient.callTool
        { hasClient := true, isConnected := true, cachedTools := ["run_report"] }
        (Except.error "transport closed")).2 =
      { hasClient := true, isConnected := true, cachedTools := ["run_report"] } ∧
    (GoogleAnalyticsMCPClient.callTool
        { hasClient := true, isConnected := true, cachedTools := ["run_report"] }
        (Except.error "transport closed")).2.isConnected = true ∧
    (GoogleAnalyticsMCPClient.listTools
        { hasClient := true, isConnected := true, cachedTools := ["run_report"] }
        (Except.error "transport closed")).2 =
      { hasClient := true, isConnected := true, cachedTools := ["run_report"] } :=
  (C8_transport_failure_keeps_connected_flag
      { hasClient := true, isConnected := true, cachedTools := ["run_report"] }
      "transport closed").2.2 rfl rfl

/-! ## Helper lemmas: connection pool -/

namespace MCPConnectionPool

theorem find?_map_replace_self (k : String) (e : ConnectionEntry) :
    ∀ l : List (String × ConnectionEntry), l.any (fun p => p.1 = k) = true →
      (l.map (fun p => if p.1 = k then (k, e) else p)).find? (fun p => p.1 = k) =
        some (k, e) := by
  intro l
  induction l with
  | nil => intro h; simp at h
  | cons q rest ih =>
    intro h
    by_cases hq : q.1 = k
    · simp [hq]
    · simp only [List.any_cons, Bool.or_eq_true, decide_eq_true_eq] at h
      rcases h with h1 | h2
      · exact absurd h1 hq
      · simp only [List.map_cons, if_neg hq]
        rw [List.find?_cons_of_neg _ (by simp [hq])]
        exact ih h2

theorem find?_append_single_self (k : String) (e : ConnectionEntry) :
    ∀ l : List (String × ConnectionEntry), l.any (fun p => p.1 = k) = false →
      (l ++ [(k, e)]).find? (fun p => p.1 = k) = some (k, e) := by
  intro l
  induction l with
  | nil => intro _; simp
  | cons q rest ih =>
    intro h
    have h1 : ¬ q.1 = k := by
      intro hk
      have hq : ((q :: rest).any (fun p => p.1 = k)) = true := by simp [hk]
      rw [h] at hq
      exact Bool.false_ne_true hq
    have h2 : rest.any (fun p => p.1 = k) = false := by
      cases hr : rest.any (fun p => p.1 = k) with
      | false => rfl
      | true =>
        have hq : ((q :: rest).any (fun p => p.1 = k)) = true := by simp [hr]
        rw [h] at hq
        exact absurd hq Bool.false_ne_true
    simp only [List.cons_append]
    rw [List.find?_cons_of_neg _ (by simp [h1])]
    exact ih h2

theorem lookupConn_mapSet_self (l : List (String × ConnectionEntry)) (k : String)
    (e : ConnectionEntry) : lookupConn (mapSet l k e) k = some e := by
  unfold lookupConn mapSet
  by_cases h : l.any (fun p => p.1 = k)
  · rw [if_pos h, find?_map_replace_self k e l h]
    rfl
  · rw [if_neg h, find?_append_single_self k e l (Bool.eq_false_iff.mpr h)]
    rfl

theorem mem_mapSet (l : List (String × ConnectionEntry)) (k : String) (e : ConnectionEntry)
    (p : String × ConnectionEntry) (hp : p ∈ mapSet l k e) :
    p = (k, e) ∨ (p ∈ l ∧ ¬ p.1 = k) := by
  unfold mapSet at hp
  by_cases h : l.any (fun p => p.1 = k)
  · rw [if_pos h] at hp
    obtain ⟨q, hq, hqp⟩ := List.mem_map.mp hp
    by_cases hk : q.1 = k
    · left
      rw [← hqp, if_pos hk]
    · right
      rw [← hqp, if_neg hk]
      exact ⟨hq, hk⟩
  · rw [if_neg h] at hp
    rcases List.mem_append.mp hp with h1 | h2
    · right
      refine ⟨h1, ?_⟩
      intro hk
      exact h (List.any_eq_true.mpr ⟨p, h1, by simp [hk]⟩)
    · left
      simpa using h2

theorem lookupConn_mem {l : List (String × ConnectionEntry)} {k : String}
    {e : ConnectionEntry} (h : lookupConn l k = some e) : (k, e) ∈ l := by
  unfold lookupConn at h
  cases hf : l.find? (fun p => p.1 = k) with
  | none => rw [hf] at h; simp at h
  | some p =>
    rw [hf] at h
    have hmem := List.mem_of_find?_eq_some hf
    have hpk : p.1 = k := by simpa using List.find?_some hf
    have hpe : p.2 = e := by simpa using h
    have : p = (k, e) := Prod.ext hpk hpe
    rw [← this]
    exact hmem

theorem contSegment_ok {creds connectOk : String → String → Bool} {st : PoolState}
    {u s : String} {now : Nat} {c : Nat} {st' : PoolState}
    (h : contSegment creds connectOk st u s now = (Except.ok c, st')) :
    c = st.nextClientId ∧
    st' = { connections := mapSet st.connections (getConnectionKey u s)
              { clientId := c, userId := u, serverName := s, lastUsed := now,
                isConnected := true },
            nextClientId := st.nextClientId + 1,
            spawnCount := st.spawnCount + 1 } := by
  unfold contSegment at h
  by_cases hcr : creds u s
  · rw [if_pos hcr] at h
    by_cases hco : connectOk u s
    · rw [if_pos hco] at h
      simp only [Prod.mk.injEq, Except.ok.injEq] at h
      obtain ⟨h1, h2⟩ := h
      subst h1
      exact ⟨rfl, h2.symm⟩
    · rw [if_neg hco] at h
      simp at h
  · rw [if_neg hcr] at h
    simp at h

theorem getConnection_cached (creds connectOk : String → String → Bool) (st : PoolState)
    (u s : String) (now : Nat) (e : ConnectionEntry)
    (hl : lookupConn st.connections (getConnectionKey u s) = some e)
    (hc : e.isConnected = true) :
    getConnection creds connectOk st u s now =
      (Except.ok e.clientId,
       { st with connections :=
           mapSet st.connections (getConnectionKey u s) { e with lastUsed := now } }) := by
  unfold getConnection syncSegment
  simp [hl, hc]

theorem getConnection_ok_lookup {creds connectOk : String → String → Bool} {st : PoolState}
    {u s : String} {now : Nat} {c : Nat} {st' : PoolState}
    (h : getConnection creds connectOk st u s now = (Except.ok c, st')) :
    ∃ e, lookupConn st'.connections (getConnectionKey u s) = some e ∧
      e.clientId = c ∧ e.isConnected = true := by
  cases hl : lookupConn st.connections (getConnectionKey u s) with
  | some e =>
    by_cases hc : e.isConnected
    · rw [getConnection_cached creds connectOk st u s now e hl hc] at h
      simp only [Prod.mk.injEq, Except.ok.injEq] at h
      obtain ⟨h1, h2⟩ := h
      refine ⟨{ e with lastUsed := now }, ?_, h1, hc⟩
      rw [← h2]
      exact lookupConn_mapSet_self st.connections (getConnectionKey u s) _
    · have hgc : getConnection creds connectOk st u s now =
          contSegment creds connectOk st u s now := by
        unfold getConnection syncSegment
        simp [hl, hc]
      rw [hgc] at h
      obtain ⟨h1, h2⟩ := contSegment_ok h
      refine ⟨⟨c, u, s, now, true⟩, ?_, rfl, rfl⟩
      rw [h2]
      exact lookupConn_mapSet_self st.connections (getConnectionKey u s) _
  | none =>
    have hgc : getConnection creds connectOk st u s now =
        contSegment creds connectOk st u s now := by
      unfold getConnection syncSegment
      simp [hl]
    rw [hgc] at h
    obtain ⟨h1, h2⟩ := contSegment_ok h
    refine ⟨⟨c, u, s, now, true⟩, ?_, rfl, rfl⟩
    rw [h2]
    exact lookupConn_mapSet_self st.connections (getConnectionKey u s) _

end MCPConnectionPool

/-- C2: if `getConnection` returned a client for (user, service), the pool holds
a Connected cache entry for that key with exactly that client; an immediately
following `getConnection` for the same key — regardless of what the credential
store or the connect step would now produce, since neither is consulted —
returns the very same client and spawns no second subprocess (the spawn counter
and the allocation counter are unchanged). -/
theorem C2_getConnection_caches_and_reuses (creds connectOk : String → String → Bool)
    (st : PoolState) (u s : String) (now : Nat) (c : Nat) (st' : PoolState)
    (h : MCPConnectionPool.getConnection creds connectOk st u s now = (Except.ok c, st')) :
    (∃ e, MCPConnectionPool.lookupConn st'.connections
        (MCPConnectionPool.getConnectionKey u s) = some e ∧
        e.clientId = c ∧ e.isConnected = true) ∧
    ∀ creds2 connectOk2 : String → String → Bool, ∀ now2 : Nat, ∃ st2 : PoolState,
      MCPConnectionPool.getConnection creds2 connectOk2 st' u s now2 = (Except.ok c, st2) ∧
      st2.spawnCount = st'.spawnCount ∧ st2.nextClientId = st'.nextClientId := by
  obtain ⟨e, hl, hid, hc⟩ := MCPConnectionPool.getConnection_ok_lookup h
  refine ⟨⟨e, hl, hid, hc⟩, ?_⟩
  intro creds2 connectOk2 now2
  have hrun := MCPConnectionPool.getConnection_cached creds2 connectOk2 st' u s now2 e hl hc
  rw [hid] at hrun
  exact ⟨_, hrun, rfl, rfl⟩

/-- Witness for C2: a concrete first call on the empty pool, then a second call
under an oracle that would report *no* credentials — the cached client is still
returned and nothing new is spawned. -/
theorem C2_witness :
    (∃ e, MCPConnectionPool.lookupConn
        ({ connections := [("u1:google-analytics",
             { clientId := 0, userId := "u1", serverName := "google-analytics",
               lastUsed := 0, isConnected := true })],
           nextClientId := 1, spawnCount := 1 } : PoolState).connections
        (MCPConnectionPool.getConnectionKey "u1" "google-analytics") = some e ∧
        e.clientId = 0 ∧ e.isConnected = true) ∧
    ∀ creds2 connectOk2 : String → String → Bool, ∀ now2 : Nat, ∃ st2 : PoolState,
      MCPConnectionPool.getConnection creds2 connectOk2
          { connections := [("u1:google-analytics",
               { clientId := 0, userId := "u1", serverName := "google-analytics",
                 lastUsed := 0, isConnected := true })],
            nextClientId := 1, spawnCount := 1 } "u1" "google-analytics" now2 =
        (Except.ok 0, st2) ∧
      st2.spawnCount = 1 ∧ st2.nextClientId = 1 :=
  C2_getConnection_caches_and_reuses (fun _ _ => true) (fun _ _ => true)
    { connections := [], nextClientId := 0, spawnCount := 0 } "u1" "google-analytics" 0 0
    { connections := [("u1:google-analytics",
         { clientId := 0, userId := "u1", serverName := "google-analytics",
           lastUsed := 0, isConnected := true })],
      nextClientId := 1, spawnCount := 1 }
    (by rfl)

namespace MCPConnectionPool

/-- The service names registered in the MCP server registry
(`lib/mcp/registry.ts`): these are the only values `serverName` takes. -/
def registeredServers : List String := ["google-analytics", "google-search-console"]

/-- A refreshed copy of an existing entry (same client id, same key) keeps the
pool invariant. -/
theorem PoolWF_refresh {st : PoolState} (hwf : PoolWF st) (k : String) (e e' : ConnectionEntry)
    (hmem : (k, e) ∈ st.connections) (hid : e'.clientId = e.clientId) (sp : Nat) :
    PoolWF ⟨mapSet st.connections k e', st.nextClientId, sp⟩ := by
  constructor
  · intro p hp q hq hne
    rcases mem_mapSet _ _ _ p hp with hpk | ⟨hpmem, hpk⟩ <;>
      rcases mem_mapSet _ _ _ q hq with hqk | ⟨hqmem, hqk⟩
    · rw [hpk, hqk] at hne
      exact absurd rfl hne
    · rw [hpk] at hne ⊢
      simp only [hid]
      exact hwf.1 _ hmem q hqmem (by simpa using hne)
    · rw [hqk] at hne ⊢
      simp only [hid]
      exact fun heq => hwf.1 _ hmem p hpmem (by simpa using hne.symm) heq.symm
    · exact hwf.1 p hpmem q hqmem hne
  · intro p hp
    rcases mem_mapSet _ _ _ p hp with hpk | ⟨hpmem, _⟩
    · rw [hpk]
      simp only [hid]
      exact hwf.2 _ hmem
    · exact hwf.2 p hpmem

/-- Inserting a freshly allocated client id keeps the pool invariant. -/
theorem PoolWF_insert_fresh {st : PoolState} (hwf : PoolWF st) (k : String)
    (e : ConnectionEntry) (hid : e.clientId = st.nextClientId) (sp : Nat) :
    PoolWF ⟨mapSet st.connections k e, st.nextClientId + 1, sp⟩ := by
  constructor
  · intro p hp q hq hne
    rcases mem_mapSet _ _ _ p hp with hpk | ⟨hpmem, hpk⟩ <;>
      rcases mem_mapSet _ _ _ q hq with hqk | ⟨hqmem, hqk⟩
    · rw [hpk, hqk] at hne
      exact absurd rfl hne
    · rw [hpk]
      simp only [hid]
      intro heq
      exact absurd heq.symm (Nat.ne_of_lt (hwf.2 q hqmem))
    · rw [hqk]
      simp only [hid]
      intro heq
      exact absurd heq (Nat.ne_of_lt (hwf.2 p hpmem))
    · exact hwf.1 p hpmem q hqmem hne
  · intro p hp
    rcases mem_mapSet _ _ _ p hp with hpk | ⟨hpmem, _⟩
    · rw [hpk, hid]
      exact Nat.lt_succ_self _
    · exact Nat.lt_succ_of_lt (hwf.2 p hpmem)

/-- The state after the miss continuation is one of: unchanged (no
credentials), counters bumped with no insertion (connect failed), or the fresh
entry inserted. -/
theorem contSegment_state (creds connectOk : String → String → Bool) (st : PoolState)
    (u s : String) (now : Nat) :
    (contSegment creds connectOk st u s now).2 = st ∨
    (contSegment creds connectOk st u s now).2 =
      ⟨st.connections, st.nextClientId + 1, st.spawnCount + 1⟩ ∨
    (contSegment creds connectOk st u s now).2 =
      ⟨mapSet st.connections (getConnectionKey u s)
          ⟨st.nextClientId, u, s, now, true⟩,
        st.nextClientId + 1, st.spawnCount + 1⟩ := by
  unfold contSegment
  by_cases hcr : creds u s
  · by_cases hco : connectOk u s
    · right; right
      simp [hcr, hco]
    · right; left
      simp [hcr, hco]
  · left
    simp [hcr]

theorem contSegment_preserves_PoolWF {creds connectOk : String → String → Bool}
    {st : PoolState} {u s : String} {now : Nat} {r : Except String Nat} {st' : PoolState}
    (hwf : PoolWF st) (h : contSegment creds connectOk st u s now = (r, st')) :
    PoolWF st' := by
  have hst : st' = (contSegment creds connectOk st u s now).2 := by
    rw [h]
  rcases contSegment_state creds connectOk st u s now with h1 | h1 | h1 <;> rw [hst, h1]
  · exact hwf
  · exact ⟨fun p hp q hq hne => hwf.1 p hp q hq hne,
      fun p hp => Nat.lt_succ_of_lt (hwf.2 p hp)⟩
  · exact PoolWF_insert_fresh hwf (getConnectionKey u s) _ rfl _

theorem getConnection_preserves_PoolWF {creds connectOk : String → String → Bool}
    {st : PoolState} {u s : String} {now : Nat} {r : Except String Nat} {st' : PoolState}
    (hwf : PoolWF st) (h : getConnection creds connectOk st u s now = (r, st')) :
    PoolWF st' := by
  cases hl : lookupConn st.connections (getConnectionKey u s) with
  | some e =>
    by_cases hc : e.isConnected
    · rw [getConnection_cached creds connectOk st u s now e hl hc] at h
      have hst : st' = ⟨mapSet st.connections (getConnectionKey u s)
          ⟨e.clientId, e.userId, e.serverName, now, e.isConnected⟩,
          st.nextClientId, st.spawnCount⟩ := (Prod.ext_iff.mp h).2.symm
      rw [hst]
      exact PoolWF_refresh hwf (getConnectionKey u s) e
        ⟨e.clientId, e.userId, e.serverName, now, e.isConnected⟩
        (lookupConn_mem hl) rfl _
    · have hgc : getConnection creds connectOk st u s now =
          contSegment creds connectOk st u s now := by
        unfold getConnection syncSegment
        simp [hl, hc]
      rw [hgc] at h
      exact contSegment_preserves_PoolWF hwf h
  | none =>
    have hgc : getConnection creds connectOk st u s now =
        contSegment creds connectOk st u s now := by
      unfold getConnection syncSegment
      simp [hl]
    rw [hgc] at h
    exact contSegment_preserves_PoolWF hwf h

end MCPConnectionPool

/-- C9 counterexample: the pool key function `` `${userId}:${serverName}` `` and
the secret-file path function `` `${userId}-${serverName}.json` `` are *not*
injective over all distinct (user, service) pairs: the separator characters may
occur in the components, so two distinct pairs can collide. -/
theorem C9_counterexample :
    MCPConnectionPool.getConnectionKey "a" "b:c" =
      MCPConnectionPool.getConnectionKey "a:b" "c" ∧
    ¬ (("a", "b:c") = (("a:b", "c") : String × String)) ∧
    CredentialManager.credentialsPath "a" "b-c" =
      CredentialManager.credentialsPath "a-b" "c" ∧
    ¬ (("a", "b-c") = (("a-b", "c") : String × String)) := by
  refine ⟨by decide, by decide, by decide, by decide⟩

namespace MCPConnectionPool

theorem getConnectionKey_injective_user {u1 u2 : String} (s : String) (hne : u1 ≠ u2) :
    getConnectionKey u1 s ≠ getConnectionKey u2 s := by
  intro h
  unfold getConnectionKey at h
  exact hne (string_append_right_cancel _ _ ":"
    (string_append_right_cancel _ _ s h))

end MCPConnectionPool

namespace CredentialManager

theorem credentialsPath_injective_user {u1 u2 : String} (s : String) (hne : u1 ≠ u2) :
    credentialsPath u1 s ≠ credentialsPath u2 s := by
  intro h
  unfold credentialsPath at h
  have h1 := string_append_left_cancel _ _ _ h
  exact hne (string_append_right_cancel _ _ "-"
    (string_append_right_cancel _ _ s (string_append_right_cancel _ _ ".json" h1)))

end CredentialManager

/-- C9 (amended): for distinct users and any one service the pool key and the
secret-file path always differ, and — starting from a well-formed pool — two
successful `getConnection` calls by distinct users never return the same client
object.  Moreover both the key function and the path function are injective on
the service names the code actually registers (`google-analytics`,
`google-search-console`); full injectivity over arbitrary (user, service)
string pairs fails because the separators `:` and `-` may occur inside the
components. -/
theorem C9_pool_key_and_secret_isolation (u1 u2 s s1 s2 : String)
    (creds connectOk creds2 connectOk2 : String → String → Bool)
    (st st1 st2 : PoolState) (now now2 : Nat) (c1 c2 : Nat) :
    (u1 ≠ u2 → MCPConnectionPool.getConnectionKey u1 s ≠
      MCPConnectionPool.getConnectionKey u2 s) ∧
    (u1 ≠ u2 → CredentialManager.credentialsPath u1 s ≠
      CredentialManager.credentialsPath u2 s) ∧
    (s1 ∈ MCPConnectionPool.registeredServers → s2 ∈ MCPConnectionPool.registeredServers →
      (MCPConnectionPool.getConnectionKey u1 s1 = MCPConnectionPool.getConnectionKey u2 s2 →
        u1 = u2 ∧ s1 = s2) ∧
      (CredentialManager.credentialsPath u1 s1 = CredentialManager.credentialsPath u2 s2 →
        u1 = u2 ∧ s1 = s2)) ∧
    (MCPConnectionPool.PoolWF st → u1 ≠ u2 →
      MCPConnectionPool.getConnection creds connectOk st u1 s now = (Except.ok c1, st1) →
      MCPConnectionPool.getConnection creds2 connectOk2 st1 u2 s now2 = (Except.ok c2, st2) →
      c1 ≠ c2) := by
  refine ⟨MCPConnectionPool.getConnectionKey_injective_user s,
    CredentialManager.credentialsPath_injective_user s, ?_, ?_⟩
  · intro hs1 hs2
    simp only [MCPConnectionPool.registeredServers, List.mem_cons, List.mem_singleton,
      List.not_mem_nil, or_false] at hs1 hs2
    constructor
    · intro h
      unfold MCPConnectionPool.getConnectionKey at h
      rcases hs1 with h1 | h1 <;> rcases hs2 with h2 | h2 <;> subst h1 <;> subst h2
      · exact ⟨string_append_right_cancel _ _ ":"
          (string_append_right_cancel _ _ "google-analytics" h), rfl⟩
      · exfalso
        have hd := congrArg String.data h
        simp only [String.data_append, List.append_assoc] at hd
        exact append_ne_of_rev_incomparable _ _ _ _ (by decide) (by decide) hd
      · exfalso
        have hd := congrArg String.data h
        simp only [String.data_append, List.append_assoc] at hd
        exact append_ne_of_rev_incomparable _ _ _ _ (by decide) (by decide) hd
      · exact ⟨string_append_right_cancel _ _ ":"
          (string_append_right_cancel _ _ "google-search-console" h), rfl⟩
    · intro h
      unfold CredentialManager.credentialsPath at h
      have h' := string_append_left_cancel _ _ _ h
      rcases hs1 with h1 | h1 <;> rcases hs2 with h2 | h2 <;> subst h1 <;> subst h2
      · exact ⟨string_append_right_cancel _ _ "-"
          (string_append_right_cancel _ _ "google-analytics"
            (string_append_right_cancel _ _ ".json" h')), rfl⟩
      · exfalso
        have hd := congrArg String.data h'
        simp only [String.data_append, List.append_assoc] at hd
        exact append_ne_of_rev_incomparable _ _ _ _ (by decide) (by decide) hd
      · exfalso
        have hd := congrArg String.data h'
        simp only [String.data_append, List.append_assoc] at hd
        exact append_ne_of_rev_incomparable _ _ _ _ (by decide) (by decide) hd
      · exact ⟨string_append_right_cancel _ _ "-"
          (string_append_right_cancel _ _ "google-search-console"
            (string_append_right_cancel _ _ ".json" h')), rfl⟩
  · intro hwf hne h1 h2
    obtain ⟨e1, hl1, hid1, hc1⟩ := MCPConnectionPool.getConnection_ok_lookup h1
    have hwf1 := MCPConnectionPool.getConnection_preserves_PoolWF hwf h1
    have hkeyne := MCPConnectionPool.getConnectionKey_injective_user s hne
    have hmem1 := MCPConnectionPool.lookupConn_mem hl1
    cases hl2 : MCPConnectionPool.lookupConn st1.connections
        (MCPConnectionPool.getConnectionKey u2 s) with
    | some e2 =>
      by_cases hc2 : e2.isConnected
      · rw [MCPConnectionPool.getConnection_cached creds2 connectOk2 st1 u2 s now2 e2
          hl2 hc2] at h2
        have hc2id : e2.clientId = c2 := by
          have := (Prod.ext_iff.mp h2).1
          exact Except.ok.inj this
        have hmem2 := MCPConnectionPool.lookupConn_mem hl2
        have hidne := hwf1.1 _ hmem1 _ hmem2 (by simpa using hkeyne)
        rw [hid1, hc2id] at hidne
        exact hidne
      · have hgc : MCPConnectionPool.getConnection creds2 connectOk2 st1 u2 s now2 =
            MCPConnectionPool.contSegment creds2 connectOk2 st1 u2 s now2 := by
          unfold MCPConnectionPool.getConnection MCPConnectionPool.syncSegment
          simp [hl2, hc2]
        rw [hgc] at h2
        obtain ⟨hcid, _⟩ := MCPConnectionPool.contSegment_ok h2
        have hlt := hwf1.2 _ hmem1
        rw [hid1] at hlt
        rw [hcid]
        exact Nat.ne_of_lt hlt
    | none =>
      have hgc : MCPConnectionPool.getConnection creds2 connectOk2 st1 u2 s now2 =
          MCPConnectionPool.contSegment creds2 connectOk2 st1 u2 s now2 := by
        unfold MCPConnectionPool.getConnection MCPConnectionPool.syncSegment
        simp [hl2]
      rw [hgc] at h2
      obtain ⟨hcid, _⟩ := MCPConnectionPool.contSegment_ok h2
      have hlt := hwf1.2 _ hmem1
      rw [hid1] at hlt
      rw [hcid]
      exact Nat.ne_of_lt hlt

/-- Witness for C9 (amended): distinct users "u1"/"u2" on the registered
service get distinct keys, distinct secret-file paths, and — after two concrete
`getConnection` calls from the empty pool — distinct client objects (0 ≠ 1). -/
theorem C9_witness :
    MCPConnectionPool.getConnectionKey "u1" "google-analytics" ≠
      MCPConnectionPool.getConnectionKey "u2" "google-analytics" ∧
    CredentialManager.credentialsPath "u1" "google-analytics" ≠
      CredentialManager.credentialsPath "u2" "google-analytics" ∧
    ((0 : Nat) ≠ 1) :=
  ⟨(C9_pool_key_and_secret_isolation "u1" "u2" "google-analytics" "google-analytics"
      "google-analytics" (fun _ _ => true) (fun _ _ => true) (fun _ _ => true)
      (fun _ _ => true) ⟨[], 0, 0⟩ ⟨[], 0, 0⟩ ⟨[], 0, 0⟩ 0 0 0 0).1 (by decide),
   (C9_pool_key_and_secret_isolation "u1" "u2" "google-analytics" "google-analytics"
      "google-analytics" (fun _ _ => true) (fun _ _ => true) (fun _ _ => true)
      (fun _ _ => true) ⟨[], 0, 0⟩ ⟨[], 0, 0⟩ ⟨[], 0, 0⟩ 0 0 0 0).2.1 (by decide),
   (C9_pool_key_and_secret_isolation "u1" "u2" "google-analytics" "google-analytics"
      "google-analytics" (fun _ _ => true) (fun _ _ => true) (fun _ _ => true)
      (fun _ _ => true) ⟨[], 0, 0⟩
      ⟨[("u1:google-analytics", ⟨0, "u1", "google-analytics", 0, true⟩)], 1, 1⟩
      ⟨[("u1:google-analytics", ⟨0, "u1", "google-analytics", 0, true⟩),
        ("u2:google-analytics", ⟨1, "u2", "google-analytics", 0, true⟩)], 2, 2⟩
      0 0 0 1).2.2.2
     (by exact ⟨fun p hp => by simp at hp, fun p hp => by simp at hp⟩)
     (by decide) (by rfl) (by rfl)⟩

namespace MCPConnectionPool

/-- `n` sequential `getConnection` calls: each call completes before the next
one starts (contrast with `runConcurrent`). -/
def seqCalls (creds connectOk : String → String → Bool) :
    Nat → PoolState → String → String → Nat → List (Except String Nat) × PoolState
  | 0, st, _, _, _ => ([], st)
  | n + 1, st, u, s, now =>
    match getConnection creds connectOk st u s now with
    | (r, st1) =>
      match seqCalls creds connectOk n st1 u s now with
      | (rs, st2) => (r :: rs, st2)

theorem seqCalls_cached (creds connectOk : String → String → Bool) (u s : String)
    (now : Nat) (c : Nat) :
    ∀ n : Nat, ∀ st : PoolState,
      (∃ e, lookupConn st.connections (getConnectionKey u s) = some e ∧
        e.clientId = c ∧ e.isConnected = true) →
      (seqCalls creds connectOk n st u s now).1 = List.replicate n (Except.ok c) ∧
      (seqCalls creds connectOk n st u s now).2.spawnCount = st.spawnCount := by
  intro n
  induction n with
  | zero => intro st _; exact ⟨rfl, rfl⟩
  | succ n ih =>
    intro st h
    obtain ⟨e, hl, hid, hc⟩ := h
    have hcall := getConnection_cached creds connectOk st u s now e hl hc
    obtain ⟨ih1, ih2⟩ := ih
      ⟨mapSet st.connections (getConnectionKey u s)
          ⟨e.clientId, e.userId, e.serverName, now, e.isConnected⟩,
        st.nextClientId, st.spawnCount⟩
      ⟨⟨e.clientId, e.userId, e.serverName, now, e.isConnected⟩,
        lookupConn_mapSet_self st.connections (getConnectionKey u s) _, hid, hc⟩
    rw [hid] at hcall ih1 ih2
    constructor
    · simp only [seqCalls, hcall, ih1, List.replicate_succ]
    · simp only [seqCalls, hcall, ih2]

end MCPConnectionPool

/-- C10 counterexample: five concurrent `getConnection` calls for the same new
(user, service) key.  Every call's synchronous cache check runs before any
call's awaited credential lookup resolves, so all five miss and all five
continuations spawn a subprocess: the spawn count is 5, not 1 — the
check-then-insert of `getConnection` spans `await` points and is not mutually
exclusive. -/
theorem C10_counterexample :
    (MCPConnectionPool.runConcurrent (fun _ _ => true) (fun _ _ => true)
        ⟨[], 0, 0⟩
        [("u1", "google-analytics"), ("u1", "google-analytics"),
         ("u1", "google-analytics"), ("u1", "google-analytics"),
         ("u1", "google-analytics")] 0).2.spawnCount = 5 ∧
    ¬ ((MCPConnectionPool.runConcurrent (fun _ _ => true) (fun _ _ => true)
        ⟨[], 0, 0⟩
        [("u1", "google-analytics"), ("u1", "google-analytics"),
         ("u1", "google-analytics"), ("u1", "google-analytics"),
         ("u1", "google-analytics")] 0).2.spawnCount = 1) := by
  constructor
  · rfl
  · decide

/-- C10 (amended): when the five calls are *sequential* — each completes before
the next starts — the first call (on a fresh key, with credentials present and
a successful connect) spawns exactly one subprocess, and every subsequent call
returns that same client with no further spawn. -/
theorem C10_sequential_calls_single_spawn (creds connectOk : String → String → Bool)
    (st st1 : PoolState) (u s : String) (now : Nat) (c : Nat) (n : Nat)
    (h : MCPConnectionPool.getConnection creds connectOk st u s now = (Except.ok c, st1)) :
    (MCPConnectionPool.seqCalls creds connectOk n st1 u s now).1 =
      List.replicate n (Except.ok c) ∧
    (MCPConnectionPool.seqCalls creds connectOk n st1 u s now).2.spawnCount =
      st1.spawnCount ∧
    (MCPConnectionPool.lookupConn st.connections
        (MCPConnectionPool.getConnectionKey u s) = none →
      st1.spawnCount = st.spawnCount + 1) := by
  obtain ⟨e, hl, hid, hc⟩ := MCPConnectionPool.getConnection_ok_lookup h
  obtain ⟨h1, h2⟩ := MCPConnectionPool.seqCalls_cached creds connectOk u s now c n st1
    ⟨e, hl, hid, hc⟩
  refine ⟨h1, h2, ?_⟩
  intro hnone
  have hgc : MCPConnectionPool.getConnection creds connectOk st u s now =
      MCPConnectionPool.contSegment creds connectOk st u s now := by
    unfold MCPConnectionPool.getConnection MCPConnectionPool.syncSegment
    simp [hnone]
  rw [hgc] at h
  obtain ⟨_, hst⟩ := MCPConnectionPool.contSegment_ok h
  rw [hst]

/-- Witness for C10 (amended): one concrete first call on the empty pool, then
four sequential repeats — all four return client 0 and the spawn count stays 1. -/
theorem C10_witness :
    (MCPConnectionPool.seqCalls (fun _ _ => true) (fun _ _ => true) 4
        ⟨[("u1:google-analytics", ⟨0, "u1", "google-analytics", 0, true⟩)], 1, 1⟩
        "u1" "google-analytics" 0).1 = List.replicate 4 (Except.ok 0) ∧
    (MCPConnectionPool.seqCalls (fun _ _ => true) (fun _ _ => true) 4
        ⟨[("u1:google-analytics", ⟨0, "u1", "google-analytics", 0, true⟩)], 1, 1⟩
        "u1" "google-analytics" 0).2.spawnCount = 1 ∧
    (MCPConnectionPool.lookupConn ([] :
        List (String × ConnectionEntry)) (MCPConnectionPool.getConnectionKey "u1"
        "google-analytics") = none → (1 : Nat) = 0 + 1) :=
  C10_sequential_calls_single_spawn (fun _ _ => true) (fun _ _ => true)
    ⟨[], 0, 0⟩
    ⟨[("u1:google-analytics", ⟨0, "u1", "google-analytics", 0, true⟩)], 1, 1⟩
    "u1" "google-analytics" 0 0 4 (by rfl)

/-! ## Helper lemmas: agent loop -/

namespace ChatRoute

/-- The state passed into the next loop pass after a tool-call response. -/
def afterToolCall (clients : String → Option (String → String → Except String String))
    (allTools : List MergedTool) (s : AgentState) (fc : FunctionCall) : AgentState :=
  ⟨s.messages ++ [ChatMsg.assistantCall fc,
      ChatMsg.function fc.name (toolResultContent
        (dispatchTool allTools clients fc.name fc.arguments))],
    s.iteration + 1, s.finalResponse, s.loopLLMCalls + 1⟩

theorem agentIter_toolcall_step (llm : List ChatMsg → LLMMessage)
    (clients : String → Option (String → String → Except String String))
    (allTools : List MergedTool) (n : Nat) (s : AgentState) (fc : FunctionCall)
    (hfc : (llm s.messages).function_call = some fc) :
    agentIter llm clients allTools (n + 1) s =
      agentIter llm clients allTools n (afterToolCall clients allTools s fc) := by
  simp only [agentIter, hfc, afterToolCall]

theorem agentIter_iteration_le (llm : List ChatMsg → LLMMessage)
    (clients : String → Option (String → String → Except String String))
    (allTools : List MergedTool) :
    ∀ fuel : Nat, ∀ s : AgentState,
      (agentIter llm clients allTools fuel s).iteration ≤ s.iteration + fuel := by
  intro fuel
  induction fuel with
  | zero =>
    intro s
    simp [agentIter]
  | succ n ih =>
    intro s
    cases hfc : (llm s.messages).function_call with
    | none =>
      simp only [agentIter, hfc]
      show s.iteration + 1 ≤ s.iteration + (n + 1)
      omega
    | some fc =>
      rw [agentIter_toolcall_step llm clients allTools n s fc hfc]
      refine le_trans (ih _) ?_
      show s.iteration + 1 + n ≤ s.iteration + (n + 1)
      omega

theorem agentIter_all_tool_calls (llm : List ChatMsg → LLMMessage)
    (clients : String → Option (String → String → Except String String))
    (allTools : List MergedTool)
    (htc : ∀ msgs : List ChatMsg, ((llm msgs).function_call).isSome = true) :
    ∀ fuel : Nat, ∀ s : AgentState,
      (agentIter llm clients allTools fuel s).iteration = s.iteration + fuel ∧
      (agentIter llm clients allTools fuel s).finalResponse = s.finalResponse ∧
      (agentIter llm clients allTools fuel s).loopLLMCalls = s.loopLLMCalls + fuel := by
  intro fuel
  induction fuel with
  | zero =>
    intro s
    exact ⟨rfl, rfl, rfl⟩
  | succ n ih =>
    intro s
    cases hfc : (llm s.messages).function_call with
    | none =>
      have := htc s.messages
      rw [hfc] at this
      simp at this
    | some fc =>
      obtain ⟨ih1, ih2, ih3⟩ := ih (afterToolCall clients allTools s fc)
      rw [agentIter_toolcall_step llm clients allTools n s fc hfc]
      refine ⟨?_, ?_, ?_⟩
      · rw [ih1]
        show s.iteration + 1 + n = s.iteration + (n + 1)
        omega
      · rw [ih2]
        rfl
      · rw [ih3]
        show s.loopLLMCalls + 1 + n = s.loopLLMCalls + (n + 1)
        omega

/-- `runAgent` with its `let` bindings unfolded. -/
theorem runAgent_eq (llm : List ChatMsg → LLMMessage) (llmPlain : List ChatMsg → Option String)
    (clients : String → Option (String → String → Except String String))
    (allTools : List MergedTool) (seed : List ChatMsg) :
    runAgent llm llmPlain clients allTools seed =
      if MAX_ITERATIONS ≤ (agentIter llm clients allTools MAX_ITERATIONS
            ⟨seed, 0, "", 0⟩).iteration ∧
          (agentIter llm clients allTools MAX_ITERATIONS ⟨seed, 0, "", 0⟩).finalResponse = ""
      then
        (jsOr (llmPlain ((agentIter llm clients allTools MAX_ITERATIONS
              ⟨seed, 0, "", 0⟩).messages ++ [forcedFinalSystemMsg]))
            "Unable to complete the request.",
          (agentIter llm clients allTools MAX_ITERATIONS ⟨seed, 0, "", 0⟩).iteration,
          (agentIter llm clients allTools MAX_ITERATIONS ⟨seed, 0, "", 0⟩).loopLLMCalls, 1)
      else
        ((agentIter llm clients allTools MAX_ITERATIONS ⟨seed, 0, "", 0⟩).finalResponse,
          (agentIter llm clients allTools MAX_ITERATIONS ⟨seed, 0, "", 0⟩).iteration,
          (agentIter llm clients allTools MAX_ITERATIONS ⟨seed, 0, "", 0⟩).loopLLMCalls, 0) :=
  rfl

end ChatRoute

/-- C1: the agent loop's iteration counter never exceeds the configured maximum
(5); and when the model requests a tool call on every iteration, the loop runs
exactly 5 iterations (5 in-loop model calls), exactly one additional plain
model call is issued after the extra system instruction, and its text
(`content || 'Unable to complete the request.'`) is the returned final answer. -/
theorem C1_iteration_budget (llm : List ChatMsg → LLMMessage)
    (llmPlain : List ChatMsg → Option String)
    (clients : String → Option (String → String → Except String String))
    (allTools : List MergedTool) (seed : List ChatMsg) :
    (ChatRoute.runAgent llm llmPlain clients allTools seed).2.1 ≤
      ChatRoute.MAX_ITERATIONS ∧
    ((∀ msgs : List ChatMsg, ((llm msgs).function_call).isSome = true) →
      (ChatRoute.runAgent llm llmPlain clients allTools seed).2.1 =
        ChatRoute.MAX_ITERATIONS ∧
      (ChatRoute.runAgent llm llmPlain clients allTools seed).2.2.1 =
        ChatRoute.MAX_ITERATIONS ∧
      (ChatRoute.runAgent llm llmPlain clients allTools seed).2.2.2 = 1 ∧
      (ChatRoute.runAgent llm llmPlain clients allTools seed).1 =
        jsOr (llmPlain ((ChatRoute.agentIter llm clients allTools
            ChatRoute.MAX_ITERATIONS ⟨seed, 0, "", 0⟩).messages ++
            [ChatRoute.forcedFinalSystemMsg]))
          "Unable to complete the request.") := by
  have hle := ChatRoute.agentIter_iteration_le llm clients allTools
    ChatRoute.MAX_ITERATIONS ⟨seed, 0, "", 0⟩
  constructor
  · rw [ChatRoute.runAgent_eq]
    split
    · show (ChatRoute.agentIter llm clients allTools ChatRoute.MAX_ITERATIONS
          ⟨seed, 0, "", 0⟩).iteration ≤ ChatRoute.MAX_ITERATIONS
      simpa using hle
    · show (ChatRoute.agentIter llm clients allTools ChatRoute.MAX_ITERATIONS
          ⟨seed, 0, "", 0⟩).iteration ≤ ChatRoute.MAX_ITERATIONS
      simpa using hle
  · intro htc
    obtain ⟨h1, h2, h3⟩ := ChatRoute.agentIter_all_tool_calls llm clients allTools htc
      ChatRoute.MAX_ITERATIONS ⟨seed, 0, "", 0⟩
    have hcond : ChatRoute.MAX_ITERATIONS ≤
        (ChatRoute.agentIter llm clients allTools ChatRoute.MAX_ITERATIONS
          ⟨seed, 0, "", 0⟩).iteration ∧
        (ChatRoute.agentIter llm clients allTools ChatRoute.MAX_ITERATIONS
          ⟨seed, 0, "", 0⟩).finalResponse = "" := by
      constructor
      · rw [h1]
        simp
      · rw [h2]
    rw [ChatRoute.runAgent_eq, if_pos hcond]
    refine ⟨?_, ?_, rfl, rfl⟩
    · show (ChatRoute.agentIter llm clients allTools ChatRoute.MAX_ITERATIONS
          ⟨seed, 0, "", 0⟩).iteration = ChatRoute.MAX_ITERATIONS
      rw [h1]
      simp
    · show (ChatRoute.agentIter llm clients allTools ChatRoute.MAX_ITERATIONS
          ⟨seed, 0, "", 0⟩).loopLLMCalls = ChatRoute.MAX_ITERATIONS
      rw [h3]
      simp

/-- Witness for C1: a model oracle that requests a tool call on every turn; the
loop stops after 5 iterations and the one forced plain call's text is returned. -/
theorem C1_witness :
    (ChatRoute.runAgent (fun _ => ⟨none, some ⟨"ga4_run_report", ""⟩⟩)
        (fun _ => some "summary so far") (fun _ => none) [] []).2.1 =
      ChatRoute.MAX_ITERATIONS ∧
    (ChatRoute.runAgent (fun _ => ⟨none, some ⟨"ga4_run_report", ""⟩⟩)
        (fun _ => some "summary so far") (fun _ => none) [] []).2.2.1 =
      ChatRoute.MAX_ITERATIONS ∧
    (ChatRoute.runAgent (fun _ => ⟨none, some ⟨"ga4_run_report", ""⟩⟩)
        (fun _ => some "summary so far") (fun _ => none) [] []).2.2.2 = 1 ∧
    (ChatRoute.runAgent (fun _ => ⟨none, some ⟨"ga4_run_report", ""⟩⟩)
        (fun _ => some "summary so far") (fun _ => none) [] []).1 =
      jsOr ((fun _ : List ChatMsg => some "summary so far")
          ((ChatRoute.agentIter (fun _ => ⟨none, some ⟨"ga4_run_report", ""⟩⟩)
              (fun _ => none) [] ChatRoute.MAX_ITERATIONS ⟨[], 0, "", 0⟩).messages ++
            [ChatRoute.forcedFinalSystemMsg]))
        "Unable to complete the request." :=
  (C1_iteration_budget (fun _ => ⟨none, some ⟨"ga4_run_report", ""⟩⟩)
      (fun _ => some "summary so far") (fun _ => none) [] []).2 (fun _ => rfl)

/-- C3: a failing tool invocation does not terminate the run.  A model request
for a name not in the merged catalog fails with the structured "not found"
error; any dispatch failure makes the pass append the assistant's call plus a
function-role turn carrying the structured error payload and continue
iterating; and if the model then answers without a tool call, the loop still
reaches that terminal answer. -/
theorem C3_tool_failure_recoverable (llm : List ChatMsg → LLMMessage)
    (clients : String → Option (String → String → Except String String))
    (allTools : List MergedTool) (fuel : Nat) (s : ChatRoute.AgentState)
    (fc : FunctionCall) (e : String)
    (hfc : (llm s.messages).function_call = some fc)
    (herr : ChatRoute.dispatchTool allTools clients fc.name fc.arguments = Except.error e) :
    (∀ fname args : String, allTools.find? (fun t => t.name = fname) = none →
      ChatRoute.dispatchTool allTools clients fname args =
        Except.error ("Tool " ++ fname ++ " not found or invalid")) ∧
    ChatRoute.agentIter llm clients allTools (fuel + 1) s =
      ChatRoute.agentIter llm clients allTools fuel
        ⟨s.messages ++ [ChatMsg.assistantCall fc,
            ChatMsg.function fc.name (ChatRoute.errorPayload e)],
          s.iteration + 1, s.finalResponse, s.loopLLMCalls + 1⟩ ∧
    ((llm (s.messages ++ [ChatMsg.assistantCall fc,
        ChatMsg.function fc.name (ChatRoute.errorPayload e)])).function_call = none →
      (ChatRoute.agentIter llm clients allTools (fuel + 2) s).finalResponse =
        jsOr (llm (s.messages ++ [ChatMsg.assistantCall fc,
          ChatMsg.function fc.name (ChatRoute.errorPayload e)])).content "No response") := by
  have hafter : ChatRoute.afterToolCall clients allTools s fc =
      ⟨s.messages ++ [ChatMsg.assistantCall fc,
          ChatMsg.function fc.name (ChatRoute.errorPayload e)],
        s.iteration + 1, s.finalResponse, s.loopLLMCalls + 1⟩ := by
    simp only [ChatRoute.afterToolCall, herr, ChatRoute.toolResultContent]
  refine ⟨?_, ?_, ?_⟩
  · intro fname args hnone
    simp [ChatRoute.dispatchTool, ChatRoute.dispatchTarget, hnone]
  · rw [ChatRoute.agentIter_toolcall_step llm clients allTools fuel s fc hfc, hafter]
  · intro hfc2
    have hstep := ChatRoute.agentIter_toolcall_step llm clients allTools (fuel + 1) s fc hfc
    rw [show fuel + 2 = (fuel + 1) + 1 from rfl, hstep, hafter]
    simp only [ChatRoute.agentIter, hfc2]

/-- Witness for C3: an unknown tool name is requested first; the loop appends
the structured error turn, continues, and the next (tool-call-free) model
response becomes the final answer. -/
theorem C3_witness :
    ChatRoute.dispatchTool [] (fun _ => none) "nonexistent_tool" "" =
      Except.error ("Tool " ++ "nonexistent_tool" ++ " not found or invalid") ∧
    (ChatRoute.agentIter
        (fun msgs => if msgs = [] then ⟨none, some ⟨"nonexistent_tool", ""⟩⟩
          else ⟨some "recovered answer", none⟩)
        (fun _ => none) [] 3 ⟨[], 0, "", 0⟩).finalResponse =
      jsOr ((fun msgs : List ChatMsg =>
            if msgs = [] then (⟨none, some ⟨"nonexistent_tool", ""⟩⟩ : LLMMessage)
            else ⟨some "recovered answer", none⟩)
          ([] ++ [ChatMsg.assistantCall ⟨"nonexistent_tool", ""⟩,
            ChatMsg.function "nonexistent_tool"
              (ChatRoute.errorPayload "Tool nonexistent_tool not found or invalid")])).content
        "No response" :=
  ⟨(C3_tool_failure_recoverable
      (fun msgs => if msgs = [] then ⟨none, some ⟨"nonexistent_tool", ""⟩⟩
        else ⟨some "recovered answer", none⟩)
      (fun _ => none) [] 1 ⟨[], 0, "", 0⟩ ⟨"nonexistent_tool", ""⟩
      "Tool nonexistent_tool not found or invalid" (by rfl) (by rfl)).1
      "nonexistent_tool" "" (by rfl),
   (C3_tool_failure_recoverable
      (fun msgs => if msgs = [] then ⟨none, some ⟨"nonexistent_tool", ""⟩⟩
        else ⟨some "recovered answer", none⟩)
      (fun _ => none) [] 1 ⟨[], 0, "", 0⟩ ⟨"nonexistent_tool", ""⟩
      "Tool nonexistent_tool not found or invalid" (by rfl) (by rfl)).2.2 (by rfl)⟩

namespace ChatRoute

theorem ga4_tag_ne_gsc_tag (a b : String) : ¬ ("ga4_" ++ a = "gsc_" ++ b) := by
  intro h
  have hd := congrArg String.data h
  simp [String.data_append] at hd

theorem find?_append_of_some {α : Type} (p : α → Bool) (l1 l2 : List α) (x : α)
    (h : l1.find? p = some x) : (l1 ++ l2).find? p = some x := by
  induction l1 with
  | nil => simp at h
  | cons a rest ih =>
    by_cases hp : p a
    · simp only [List.cons_append]
      rw [List.find?_cons_of_pos _ hp] at h ⊢
      exact h
    · simp only [List.cons_append]
      rw [List.find?_cons_of_neg _ hp] at h ⊢
      exact ih h

theorem find?_append_of_none {α : Type} (p : α → Bool) (l1 l2 : List α)
    (h : l1.find? p = none) : (l1 ++ l2).find? p = l2.find? p := by
  induction l1 with
  | nil => simp
  | cons a rest ih =>
    by_cases hp : p a
    · rw [List.find?_cons_of_pos _ hp] at h
      simp at h
    · simp only [List.cons_append]
      rw [List.find?_cons_of_neg _ hp] at h ⊢
      exact ih h

theorem find?_renameTools (tag descrTag svc : String) (r : MCPRawTool) :
    ∀ ts : List MCPRawTool, (ts.map (fun t => t.name)).Nodup → r ∈ ts →
      (renameTools tag descrTag svc ts).find? (fun t => t.name = tag ++ r.name) =
        some ⟨tag ++ r.name, descrTag ++ r.description, some r.name, some svc⟩ := by
  intro ts
  induction ts with
  | nil =>
    intro _ hr
    simp at hr
  | cons t rest ih =>
    intro hnd hr
    rcases List.mem_cons.mp hr with heq | hr2
    · subst heq
      simp only [renameTools, List.map_cons]
      rw [List.find?_cons_of_pos _ (by simp)]
    · have hneq : ¬ t.name = r.name := by
        intro heq
        have hmem : r.name ∈ rest.map (fun t => t.name) :=
          List.mem_map_of_mem _ hr2
        rw [← heq] at hmem
        exact (List.nodup_cons.mp hnd).1 hmem
      simp only [renameTools, List.map_cons]
      rw [List.find?_cons_of_neg _ (by
        simp only [decide_eq_true_eq]
        intro hcontra
        exact hneq (string_append_left_cancel tag _ _ hcontra))]
      exact ih (List.nodup_cons.mp hnd).2 hr2

theorem find?_ga4_part_none_for_gsc_name (descrTag svc nm : String) (ts : List MCPRawTool) :
    (renameTools "ga4_" descrTag svc ts).find? (fun t => t.name = "gsc_" ++ nm) = none := by
  rw [List.find?_eq_none]
  intro x hx
  obtain ⟨t, _, hxt⟩ := List.mem_map.mp hx
  simp only [decide_eq_true_eq]
  rw [← hxt]
  intro hcontra
  exact ga4_tag_ne_gsc_tag t.name nm hcontra

end ChatRoute

/-- C4: merging renames every GA4 tool to `ga4_<name>` and every GSC tool to
`gsc_<name>` while retaining `_originalName` and `_service`; the external names
are unique across services even when both services expose the identical
canonical name; and a model request for a prefixed name is dispatched to the
originating service's client with the original unprefixed name (rename/dispatch
round-trip).  The per-service catalogs are assumed to carry unique, non-empty
canonical names. -/
theorem C4_merged_tools_unique_and_roundtrip (ga4 gsc : List MCPRawTool)
    (hga : (ga4.map (fun t => t.name)).Nodup)
    (hgsc : (gsc.map (fun t => t.name)).Nodup) :
    ((ChatRoute.mergedTools ga4 gsc).map (fun t => t.name)).Nodup ∧
    (∀ t ∈ ChatRoute.mergedTools ga4 gsc,
      (∃ r ∈ ga4, t.name = "ga4_" ++ r.name ∧ t.originalName = some r.name ∧
        t.service = some "google-analytics") ∨
      (∃ r ∈ gsc, t.name = "gsc_" ++ r.name ∧ t.originalName = some r.name ∧
        t.service = some "google-search-console")) ∧
    (∀ r ∈ ga4, ¬ r.name = "" →
      ChatRoute.dispatchTarget (ChatRoute.mergedTools ga4 gsc) ("ga4_" ++ r.name) =
        some ("google-analytics", r.name) ∧
      ∀ clients : String → Option (String → String → Except String String),
        ∀ f : String → String → Except String String, ∀ args : String,
        clients "google-analytics" = some f →
        ChatRoute.dispatchTool (ChatRoute.mergedTools ga4 gsc) clients
          ("ga4_" ++ r.name) args = f r.name args) ∧
    (∀ r ∈ gsc, ¬ r.name = "" →
      ChatRoute.dispatchTarget (ChatRoute.mergedTools ga4 gsc) ("gsc_" ++ r.name) =
        some ("google-search-console", r.name) ∧
      ∀ clients : String → Option (String → String → Except String String),
        ∀ f : String → String → Except String String, ∀ args : String,
        clients "google-search-console" = some f →
        ChatRoute.dispatchTool (ChatRoute.mergedTools ga4 gsc) clients
          ("gsc_" ++ r.name) args = f r.name args) := by
  have hga4find : ∀ r ∈ ga4, (ChatRoute.mergedTools ga4 gsc).find?
      (fun t => t.name = "ga4_" ++ r.name) =
      some ⟨"ga4_" ++ r.name, "[GA4] " ++ r.description, some r.name,
        some "google-analytics"⟩ := by
    intro r hr
    exact ChatRoute.find?_append_of_some _ _ _ _
      (ChatRoute.find?_renameTools "ga4_" "[GA4] " "google-analytics" r ga4 hga hr)
  have hgscfind : ∀ r ∈ gsc, (ChatRoute.mergedTools ga4 gsc).find?
      (fun t => t.name = "gsc_" ++ r.name) =
      some ⟨"gsc_" ++ r.name, "[GSC] " ++ r.description, some r.name,
        some "google-search-console"⟩ := by
    intro r hr
    unfold ChatRoute.mergedTools
    rw [ChatRoute.find?_append_of_none _ _ _
      (ChatRoute.find?_ga4_part_none_for_gsc_name "[GA4] " "google-analytics" r.name ga4)]
    exact ChatRoute.find?_renameTools "gsc_" "[GSC] " "google-search-console" r gsc hgsc hr
  refine ⟨?_, ?_, ?_, ?_⟩
  · have hmap : (ChatRoute.mergedTools ga4 gsc).map (fun t => t.name) =
        (ga4.map (fun t => t.name)).map (fun n => "ga4_" ++ n) ++
        (gsc.map (fun t => t.name)).map (fun n => "gsc_" ++ n) := by
      simp only [ChatRoute.mergedTools, ChatRoute.renameTools, List.map_append,
        List.map_map]
      rfl
    rw [hmap]
    refine List.Nodup.append ?_ ?_ ?_
    · exact hga.map (fun a b hab => string_append_left_cancel "ga4_" a b hab)
    · exact hgsc.map (fun a b hab => string_append_left_cancel "gsc_" a b hab)
    · intro x hx1 hx2
      obtain ⟨a, _, ha⟩ := List.mem_map.mp hx1
      obtain ⟨b, _, hb⟩ := List.mem_map.mp hx2
      rw [← ha] at hb
      exact ChatRoute.ga4_tag_ne_gsc_tag a b hb.symm
  · intro t ht
    rcases List.mem_append.mp ht with h1 | h1
    · obtain ⟨r, hr, hrt⟩ := List.mem_map.mp h1
      exact Or.inl ⟨r, hr, by rw [← hrt], by rw [← hrt], by rw [← hrt]⟩
    · obtain ⟨r, hr, hrt⟩ := List.mem_map.mp h1
      exact Or.inr ⟨r, hr, by rw [← hrt], by rw [← hrt], by rw [← hrt]⟩
  · intro r hr hne
    have htarget : ChatRoute.dispatchTarget (ChatRoute.mergedTools ga4 gsc)
        ("ga4_" ++ r.name) = some ("google-analytics", r.name) := by
      unfold ChatRoute.dispatchTarget
      rw [hga4find r hr]
      simp [hne]
    refine ⟨htarget, ?_⟩
    intro clients f args hcl
    unfold ChatRoute.dispatchTool
    rw [htarget]
    simp [hcl]
  · intro r hr hne
    have htarget : ChatRoute.dispatchTarget (ChatRoute.mergedTools ga4 gsc)
        ("gsc_" ++ r.name) = some ("google-search-console", r.name) := by
      unfold ChatRoute.dispatchTarget
      rw [hgscfind r hr]
      simp [hne]
    refine ⟨htarget, ?_⟩
    intro clients f args hcl
    unfold ChatRoute.dispatchTool
    rw [htarget]
    simp [hcl]

/-- Witness for C4: GA4 and GSC both expose a tool canonically named
`list_items`; the merged names `ga4_list_items` and `gsc_list_items` are
distinct, and each dispatches to its own service's client with the original
name. -/
theorem C4_witness :
    ((ChatRoute.mergedTools [⟨"list_items", "List GA4 items"⟩]
        [⟨"list_items", "List GSC items"⟩]).map (fun t => t.name)).Nodup ∧
    ChatRoute.dispatchTarget
        (ChatRoute.mergedTools [⟨"list_items", "List GA4 items"⟩]
          [⟨"list_items", "List GSC items"⟩]) ("ga4_" ++ "list_items") =
      some ("google-analytics", "list_items") ∧
    ChatRoute.dispatchTool
        (ChatRoute.mergedTools [⟨"list_items", "List GA4 items"⟩]
          [⟨"list_items", "List GSC items"⟩])
        (fun svc => if svc = "google-analytics"
          then some (fun n a => Except.ok ("ga-result:" ++ n ++ ":" ++ a))
          else if svc = "google-search-console"
          then some (fun n a => Except.ok ("gsc-result:" ++ n ++ ":" ++ a))
          else none)
        ("ga4_" ++ "list_items") "args" =
      (fun n a => (Except.ok ("ga-result:" ++ n ++ ":" ++ a) : Except String String))
        "list_items" "args" ∧
    ChatRoute.dispatchTarget
        (ChatRoute.mergedTools [⟨"list_items", "List GA4 items"⟩]
          [⟨"list_items", "List GSC items"⟩]) ("gsc_" ++ "list_items") =
      some ("google-search-console", "list_items") ∧
    ChatRoute.dispatchTool
        (ChatRoute.mergedTools [⟨"list_items", "List GA4 items"⟩]
          [⟨"list_items", "List GSC items"⟩])
        (fun svc => if svc = "google-analytics"
          then some (fun n a => Except.ok ("ga-result:" ++ n ++ ":" ++ a))
          else if svc = "google-search-console"
          then some (fun n a => Except.ok ("gsc-result:" ++ n ++ ":" ++ a))
          else none)
        ("gsc_" ++ "list_items") "args" =
      (fun n a => (Except.ok ("gsc-result:" ++ n ++ ":" ++ a) : Except String String))
        "list_items" "args" :=
  ⟨(C4_merged_tools_unique_and_roundtrip [⟨"list_items", "List GA4 items"⟩]
      [⟨"list_items", "List GSC items"⟩] (by decide) (by decide)).1,
   ((C4_merged_tools_unique_and_roundtrip [⟨"list_items", "List GA4 items"⟩]
      [⟨"list_items", "List GSC items"⟩] (by decide) (by decide)).2.2.1
      ⟨"list_items", "List GA4 items"⟩ (by decide) (by decide)).1,
   ((C4_merged_tools_unique_and_roundtrip [⟨"list_items", "List GA4 items"⟩]
      [⟨"list_items", "List GSC items"⟩] (by decide) (by decide)).2.2.1
      ⟨"list_items", "List GA4 items"⟩ (by decide) (by decide)).2 _ _ "args" (by rfl),
   ((C4_merged_tools_unique_and_roundtrip [⟨"list_items", "List GA4 items"⟩]
      [⟨"list_items", "List GSC items"⟩] (by decide) (by decide)).2.2.2
      ⟨"list_items", "List GSC items"⟩ (by decide) (by decide)).1,
   ((C4_merged_tools_unique_and_roundtrip [⟨"list_items", "List GA4 items"⟩]
      [⟨"list_items", "List GSC items"⟩] (by decide) (by decide)).2.2.2
      ⟨"list_items", "List GSC items"⟩ (by decide) (by decide)).2 _ _ "args" (by rfl)⟩
